import Mathlib

/-!
Verification of the dynamic topic-processor registry
(`src/processor-registry` revision with auto-discovery, and
`src/kafka-topic-processor.js`).

The JavaScript sources are shallowly embedded: JS runtime values are the
inductive `JsonVal` (with an explicit marker for self-referential
structures, on which `JSON.stringify` throws), JS `Map`s are association
lists with `Map.set`/`Map.delete` semantics, wall-clock time
(`Date.now()`) is an explicit `now : Nat` parameter threaded through every
public operation, and the filesystem / dynamic-module loader consulted by
auto-discovery is an explicit environment record `FsEnv`.  Fallible
builtins (`JSON.stringify`, the processor-shape hash) return `Except`.
Every public entry point of the registry catches internally, so its
embedding is a total function returning a result record, mirroring the
`try`/`catch` structure of the source.
-/

/-- Model of JavaScript runtime values as they flow through the processor
subsystem.  `jcyclic` marks a self-referential structure — exactly the
values on which `JSON.stringify` throws a `TypeError`.  `jundef` is JS
`undefined`. -/
inductive JsonVal where
  | jnull
  | jundef
  | jcyclic
  | jbool (b : Bool)
  | jnum (n : Int)
  | jstr (s : String)
  | jarr (xs : List JsonVal)
  | jobj (fields : List (String × JsonVal))

/-- A JavaScript object: ordered key/value pairs (keys unique once built
through `objLit`). -/
abbrev JsObj := List (String × JsonVal)

mutual

/-- Whether a value contains a self-referential structure anywhere: the
condition under which `JSON.stringify` throws. -/
def hasCycle : JsonVal → Bool
  | .jcyclic => true
  | .jarr xs => hasCycleList xs
  | .jobj fs => hasCycleFields fs
  | _ => false

def hasCycleList : List JsonVal → Bool
  | [] => false
  | x :: xs => hasCycle x || hasCycleList xs

def hasCycleFields : List (String × JsonVal) → Bool
  | [] => false
  | (_, v) :: fs => hasCycle v || hasCycleFields fs

end

/-- JavaScript truthiness. -/
def truthy : JsonVal → Bool
  | .jnull => false
  | .jundef => false
  | .jbool b => b
  | .jnum n => n != 0
  | .jstr s => s != ""
  | .jcyclic => true
  | .jarr _ => true
  | .jobj _ => true

/-- JSON string quoting as performed by `JSON.stringify` on strings
(escapes quote, backslash and the common control characters). -/
def jsonQuote (s : String) : String :=
  "\"" ++ String.join (s.data.map (fun c =>
    if c = '"' then "\\\""
    else if c = '\\' then "\\\\"
    else if c = '\n' then "\\n"
    else if c = '\t' then "\\t"
    else if c = '\r' then "\\r"
    else String.singleton c)) ++ "\""

mutual

/-- Rendering of `JSON.stringify(v)` (no indentation) for acyclic values.
`none` models `undefined` as the stringify result.  Object keys whose
value serializes to `undefined` are dropped; inside arrays such values
render as `null`, as in JS.  (Callers check `hasCycle` first: on a cyclic
value `JSON.stringify` throws instead of returning.) -/
def renderJson : JsonVal → Option String
  | .jnull => some "null"
  | .jundef => none
  | .jcyclic => none
  | .jbool b => some (if b then "true" else "false")
  | .jnum n => some (toString n)
  | .jstr s => some (jsonQuote s)
  | .jarr xs => some ("[" ++ String.intercalate "," (renderList xs) ++ "]")
  | .jobj fs => some ("\x7b" ++ String.intercalate "," (renderFields fs) ++ "\x7d")

def renderList : List JsonVal → List String
  | [] => []
  | x :: xs => ((renderJson x).getD "null") :: renderList xs

def renderFields : List (String × JsonVal) → List String
  | [] => []
  | (k, v) :: fs =>
    match renderJson v with
    | some r => (jsonQuote k ++ ":" ++ r) :: renderFields fs
    | none => renderFields fs

end

/-- `Map.get` / assoc-list lookup (first matching key). -/
def mapGet {α : Type} : List (String × α) → String → Option α
  | [], _ => none
  | (k', v) :: rest, k => if k' = k then some v else mapGet rest k

/-- `Map.set`: update the value at an existing key in place, else append. -/
def mapSet {α : Type} : List (String × α) → String → α → List (String × α)
  | [], k, v => [(k, v)]
  | (k', v') :: rest, k, v =>
    if k' = k then (k, v) :: rest else (k', v') :: mapSet rest k v

/-- `Map.delete`. -/
def mapDelete {α : Type} : List (String × α) → String → List (String × α)
  | [], _ => []
  | (k', v') :: rest, k =>
    if k' = k then mapDelete rest k else (k', v') :: mapDelete rest k

/-- A JS object literal: fields are defined left to right, a repeated key
overwrites the value at its first position (the semantics of
`{a: x, ...spread}`). -/
def objLit (fields : List (String × JsonVal)) : JsObj :=
  fields.foldl (fun acc kv => mapSet acc kv.1 kv.2) []

/-- JS `ToInt32` (the effect of `hash & hash` / `<<` on a JS number). -/
def toInt32 (n : Int) : Int := ((n + 2 ^ 31) % 2 ^ 32) - 2 ^ 31

/-- One step of the rolling hash in `hashProcessor`:
`hash = ((hash << 5) - hash) + char; hash = hash & hash`. -/
def jsHashStep (h : Int) (c : Nat) : Int := toInt32 (toInt32 (h * 32) - h + c)

/-- The rolling hash over the characters of a string. -/
def jsHash (s : String) : Int := s.data.foldl (fun h c => jsHashStep h c.toNat) 0

/-- `Math.abs(hash).toString(16)`. -/
def hashHex (h : Int) : String := (Nat.toDigits 16 h.natAbs).asString

/-- ISO rendering of an instant, `new Date(ms).toISOString()`.  The JS
builtin is abstracted by an injective rendering of the millisecond
timestamp; no claim inspects the inner format of the timestamp strings. -/
def toISOString (ms : Nat) : String := Nat.repr ms ++ "Z"

/-- Behavior of an overridden `processMessage(message, metadata)` of a
`KafkaTopicProcessor` subclass: resolve with a fixed object, reject with
an error message, or resolve with a fixed object extended by a field
holding the inbound message (the shape of `EchoProcessor`). -/
inductive PmBehavior where
  | ret (r : JsObj)
  | raise (msg : String)
  | retWithEcho (base : JsObj) (key : String)

/-- Behavior of a registered processor's `process(topic, message,
metadata)` method: a plain object's own method resolving or rejecting
directly, a plain echoing method, or the inherited
`KafkaTopicProcessor.process` wrapping an overridden `processMessage`. -/
inductive ProcBehavior where
  | raw (r : Except String JsObj)
  | rawEcho (base : JsObj) (key : String)
  | ktp (pm : PmBehavior)

/-- A processor instance as seen by the registry: the shape projected by
`hashProcessor` / `getProcessorInfo` (constructor name, own `name` and
`description` properties, method presence) plus the behavior of its
`process` method. -/
structure Processor where
  ctorName : String
  pname : JsonVal := .jundef
  description : JsonVal := .jundef
  hasProcess : Bool := true
  hasGetInfo : Bool := false
  behavior : ProcBehavior := .ktp (.ret [("status", .jstr "success"), ("message", .jstr "Message processed successfully")])

namespace KafkaTopicProcessor

/-- `createSuccessResult(message, additionalData = {})` from
`src/kafka-topic-processor.js`: `{status: 'success', message: message ||
'Message processed successfully', ...additionalData}`.  Note the spread
comes after the explicit keys. -/
def createSuccessResult (message : JsonVal) (additionalData : JsObj) : JsObj :=
  objLit ([("status", .jstr "success"),
           ("message", if truthy message then message
                       else .jstr "Message processed successfully")]
          ++ additionalData)

/-- `createErrorResult(error, additionalData = {})` from
`src/kafka-topic-processor.js`. -/
def createErrorResult (error : JsonVal) (additionalData : JsObj) : JsObj :=
  objLit ([("status", .jstr "error"),
           ("message", if truthy error then error
                       else .jstr "Unknown error occurred")]
          ++ additionalData)

/-- The message `JSON.stringify` throws on a self-referential structure
(Node appends a description of the cycle path; the prefix suffices for
the model, no claim inspects the tail of the message). -/
def circularErr : String := "Converting circular structure to JSON"

/-- Run an overridden `processMessage`. -/
def runPm : PmBehavior → JsonVal → JsonVal → Except String JsObj
  | .ret r, _, _ => .ok r
  | .raise m, _, _ => .error m
  | .retWithEcho base key, msg, _ => .ok (objLit (base ++ [(key, msg)]))

/-- `KafkaTopicProcessor.process(topic, message, metadata)` from
`src/kafka-topic-processor.js` lines 46-73: inside one `try`, debug-logs
`JSON.stringify(message, null, 2)` and `JSON.stringify(metadata, null,
2)`, awaits `this.processMessage(message, metadata)`, debug-logs
`JSON.stringify(result, null, 2)`, and returns
`createSuccessResult(result)`; the `catch` returns
`createErrorResult(error.message)`.  A `JSON.stringify` call on a cyclic
value throws and is caught by the same `catch`. -/
def process (pm : PmBehavior) (message metadata : JsonVal) : JsObj :=
  if hasCycle message then createErrorResult (.jstr circularErr) []
  else if hasCycle metadata then createErrorResult (.jstr circularErr) []
  else
    match runPm pm message metadata with
    | .error e => createErrorResult (.jstr e) []
    | .ok result =>
      if hasCycle (.jobj result) then createErrorResult (.jstr circularErr) []
      else createSuccessResult (.jobj result) []

end KafkaTopicProcessor

/-- Invoke `processor.process(topic, message, metadata)` as the registry
does, producing either a resolved result object or a thrown error
message. -/
def callProcess (p : Processor) (message metadata : JsonVal) : Except String JsObj :=
  if p.hasProcess then
    match p.behavior with
    | .raw r => r
    | .rawEcho base key => .ok (objLit (base ++ [(key, message)]))
    | .ktp pm => .ok (KafkaTopicProcessor.process pm message metadata)
  else .error "processor.process is not a function"

/-- The options bag passed to register/update; the discovery subsystem
stores its provenance tag and originating file path here. -/
structure RegOptions where
  source : Option String := none
  filePath : Option String := none
deriving DecidableEq, Repr

/-- The per-topic version record kept in `processorVersions`.
`previousVersion` is `none` when the stored object has no such key
(`registerProcessor`) and `some` when `updateProcessor` added it. -/
structure VersionInfo where
  version : String
  registeredAt : String
  updatedAt : String
  previousVersion : Option String := none
  options : RegOptions
deriving DecidableEq, Repr

/-- An entry of `processorFiles`, tracking a discovered file for
change-detection. -/
structure FileRecord where
  filePath : String
  mtime : Nat
  size : Nat
deriving DecidableEq, Repr

/-- The counters in `registryStats`. -/
structure RegistryStats where
  totalRegistered : Nat := 0
  totalDeregistered : Nat := 0
  totalUpdated : Nat := 0
  lastUpdated : Option String := none
  autoRefreshCount : Nat := 0
deriving DecidableEq, Repr

/-- The mutable state of a `ProcessorRegistry` instance. -/
structure RegistryState where
  processors : List (String × Processor) := []
  processorVersions : List (String × VersionInfo) := []
  processorFiles : List (String × FileRecord) := []
  stats : RegistryStats := {}

/-- The result object returned by register/deregister/update. -/
structure RegResult where
  success : Bool
  topic : Option String
  version : Option String := none
  previousVersion : Option String := none
  action : Option String := none
  error : Option String := none
  timestamp : String

namespace ProcessorRegistry

/-- `hashProcessor(processor)`: `JSON.stringify` of the shape projection
`{name: processor.name || processor.constructor.name, description:
processor.description, hasProcess, hasGetInfo}`, then the rolling hash,
then `Math.abs(hash).toString(16)`.  The stringify throws when the
projection contains a self-referential structure (e.g. a cyclic
`description`). -/
def hashProcessor (p : Processor) : Except String String :=
  let projection : JsonVal := .jobj
    [("name", if truthy p.pname then p.pname else .jstr p.ctorName),
     ("description", p.description),
     ("hasProcess", .jbool p.hasProcess),
     ("hasGetInfo", .jbool p.hasGetInfo)]
  if hasCycle projection then .error KafkaTopicProcessor.circularErr
  else .ok (hashHex (jsHash ((renderJson projection).getD "")))

/-- `generateProcessorVersion(processor)`:
`` `${Date.now()}-${this.hashProcessor(processor)}` ``. -/
def generateProcessorVersion (now : Nat) (p : Processor) : Except String String :=
  (hashProcessor p).map (fun h => Nat.repr now ++ "-" ++ h)

/-- The failure result built in every `catch` block of the mutators. -/
def failResult (topic : Option String) (msg : String) (now : Nat) : RegResult :=
  { success := false, topic := topic, error := some msg,
    timestamp := toISOString now }

/-- `registerProcessor(topic, processor, options = {})` — part_012 lines
323-384.  `topic` is `some t` for a string argument (`""` is falsy and
rejected) and `none` for any non-string; `processor` is `none` for a
missing/primitive argument, and a present processor without a callable
`process` is rejected.  Version generation happens before the maps are
touched; an existing entry makes the call an update. -/
def registerProcessor (st : RegistryState) (now : Nat) (topic : Option String)
    (processor : Option Processor) (options : RegOptions) :
    RegResult × RegistryState :=
  match topic with
  | none => (failResult none "Topic must be a valid string" now, st)
  | some t =>
    if t = "" then (failResult (some t) "Topic must be a valid string" now, st)
    else
      match processor with
      | none => (failResult (some t) "Processor must have a process method" now, st)
      | some p =>
        if !p.hasProcess then
          (failResult (some t) "Processor must have a process method" now, st)
        else
          let isUpdate := (mapGet st.processors t).isSome
          match generateProcessorVersion now p with
          | .error e => (failResult (some t) e now, st)
          | .ok version =>
            let info : VersionInfo :=
              { version := version, registeredAt := toISOString now,
                updatedAt := toISOString now, options := options }
            let stats :=
              if isUpdate then
                { st.stats with totalUpdated := st.stats.totalUpdated + 1,
                                lastUpdated := some (toISOString now) }
              else
                { st.stats with totalRegistered := st.stats.totalRegistered + 1,
                                lastUpdated := some (toISOString now) }
            ({ success := true, topic := some t, version := some version,
               action := some (if isUpdate then "updated" else "registered"),
               timestamp := toISOString now },
             { st with processors := mapSet st.processors t p,
                       processorVersions := mapSet st.processorVersions t info,
                       stats := stats })

/-- `deregisterProcessor(topic, options = {})` — part_012 lines 392-447. -/
def deregisterProcessor (st : RegistryState) (now : Nat) (topic : Option String) :
    RegResult × RegistryState :=
  match topic with
  | none => (failResult none "Topic must be a valid string" now, st)
  | some t =>
    if t = "" then (failResult (some t) "Topic must be a valid string" now, st)
    else
      match mapGet st.processors t with
      | none => (failResult (some t) ("No processor found for topic: " ++ t) now, st)
      | some _ =>
        let versionInfo := mapGet st.processorVersions t
        ({ success := true, topic := some t, action := some "deregistered",
           version := versionInfo.map (·.version), timestamp := toISOString now },
         { st with processors := mapDelete st.processors t,
                   processorVersions := mapDelete st.processorVersions t,
                   stats := { st.stats with
                     totalDeregistered := st.stats.totalDeregistered + 1,
                     lastUpdated := some (toISOString now) } })

/-- `updateProcessor(topic, processor, options = {})` — part_012 lines
456-527.  Note the order in the source: `this.processors.set(topic,
processor)` happens before `generateProcessorVersion(processor)`, so when
version generation throws, the `catch` reports failure with the processor
map already replaced; likewise the access `oldVersion.version` throws
after the processor map was replaced if the version record is missing. -/
def updateProcessor (st : RegistryState) (now : Nat) (topic : Option String)
    (processor : Option Processor) (options : RegOptions) :
    RegResult × RegistryState :=
  match topic with
  | none => (failResult none "Topic must be a valid string" now, st)
  | some t =>
    if t = "" then (failResult (some t) "Topic must be a valid string" now, st)
    else
      match processor with
      | none => (failResult (some t) "Processor must have a process method" now, st)
      | some p =>
        if !p.hasProcess then
          (failResult (some t) "Processor must have a process method" now, st)
        else
          match mapGet st.processors t with
          | none =>
            (failResult (some t)
              ("No processor found for topic: " ++ t ++ ". Use registerProcessor instead.")
              now, st)
          | some _ =>
            let oldVersion := mapGet st.processorVersions t
            let stSet := { st with processors := mapSet st.processors t p }
            match generateProcessorVersion now p with
            | .error e => (failResult (some t) e now, stSet)
            | .ok newVersion =>
              match oldVersion with
              | none =>
                -- `oldVersion.version` throws: TypeError caught by the catch
                (failResult (some t)
                  "Cannot read properties of undefined (reading 'version')"
                  now, stSet)
              | some old =>
                ({ success := true, topic := some t, version := some newVersion,
                   previousVersion := some old.version, action := some "updated",
                   timestamp := toISOString now },
                 { stSet with
                     processorVersions := mapSet st.processorVersions t
                       { old with version := newVersion,
                                  updatedAt := toISOString now,
                                  previousVersion := some old.version,
                                  options := options },
                     stats := { st.stats with
                       totalUpdated := st.stats.totalUpdated + 1,
                       lastUpdated := some (toISOString now) } })

/-- `getProcessor(topic)`. -/
def getProcessor (st : RegistryState) (topic : String) : Option Processor :=
  mapGet st.processors topic

/-- `hasProcessor(topic)`. -/
def hasProcessor (st : RegistryState) (topic : String) : Bool :=
  (mapGet st.processors topic).isSome

/-- `getAvailableTopics()`. -/
def getAvailableTopics (st : RegistryState) : List String :=
  st.processors.map Prod.fst

/-- The result object of `clear`. -/
structure ClearResult where
  success : Bool
  clearedCount : Nat
  topics : List String
  action : String
  timestamp : String
deriving DecidableEq, Repr

/-- `clear(options = {})` — part_012 lines 622-663.  Empties the two
processor maps (but not `processorFiles`). -/
def clear (st : RegistryState) (now : Nat) : ClearResult × RegistryState :=
  let topics := getAvailableTopics st
  ({ success := true, clearedCount := topics.length, topics := topics,
     action := "cleared", timestamp := toISOString now },
   { st with processors := [], processorVersions := [],
             stats := { st.stats with lastUpdated := some (toISOString now) } })

/-- `processMessage(topic, message, metadata)` — part_012 lines 731-765.
Total: the absent-processor case returns an error object, and the
`try`/`catch` converts a rejection of `processor.process` into an error
object carrying the processor's constructor name. -/
def processMessage (st : RegistryState) (now : Nat) (topic : String)
    (message metadata : JsonVal) : JsObj :=
  match mapGet st.processors topic with
  | none =>
    objLit [("status", .jstr "error"),
            ("message", .jstr ("No processor found for topic: " ++ topic)),
            ("topic", .jstr topic),
            ("timestamp", .jstr (toISOString now))]
  | some p =>
    match callProcess p message metadata with
    | .ok result =>
      objLit (result ++
        [("topic", .jstr topic),
         ("processor", .jstr p.ctorName),
         ("timestamp", .jstr (toISOString now))])
    | .error e =>
      objLit [("status", .jstr "error"),
              ("message", .jstr e),
              ("topic", .jstr topic),
              ("processor", .jstr p.ctorName),
              ("timestamp", .jstr (toISOString now))]

end ProcessorRegistry

/-- The configuration fields of the registry consulted by discovery. -/
structure RegistryConfig where
  processorsDir : String := "./processors"
  fileExtensions : List String := [".js"]

/-- The result of `fs.statSync`: modification time (epoch milliseconds,
`stats.mtime.getTime()`) and size. -/
structure FileInfo where
  mtime : Nat
  size : Nat
deriving DecidableEq, Repr

/-- The filesystem / module-loader world consulted by auto-discovery:
`fs.existsSync`, `fs.readdirSync`, `fs.statSync` (`none` models a thrown
stat error) and `loadProcessorFromFile` (`none` models an invalid or
unloadable processor file, for which the source returns `null`). -/
structure FsEnv where
  existsSync : String → Bool
  listing : String → List String
  stat : String → Option FileInfo
  loader : String → Option Processor

/-- The `options.kafkaAccessor` argument of `autoDiscoverProcessors`:
absent (or lacking `.admin`), present with a failing `listTopics`, or
present with a successful `listTopics`. -/
inductive TopicSource where
  | noAccessor
  | failing
  | topics (ts : List String)

/-- `file.startsWith('.')`: whether the file name is hidden.  (Modeled on
the character list directly; the builtin `String.startsWith` is
byte-position based and does not reduce in the kernel.) -/
def startsWithDot (s : String) : Bool :=
  match s.data with
  | [] => false
  | c :: _ => c = '.'

/-- `path.extname`: the suffix from the last dot, `""` when there is no
dot or the only dot is the leading character. -/
def extname (s : String) : String :=
  let cs := s.data
  match cs.reverse.findIdx? (· = '.') with
  | none => ""
  | some j =>
    let i := cs.length - 1 - j
    if i = 0 then "" else ⟨cs.drop i⟩

/-- `path.basename(filePath, path.extname(filePath))` applied to a plain
file name: the name with its extension stripped. -/
def stripExt (name : String) : String :=
  ⟨name.data.take (name.data.length - (extname name).data.length)⟩

namespace ProcessorRegistry

/-- The directory listing filtered as in `scanProcessorFiles`: matching
extension, not a hidden (leading-dot) file; empty when the directory does
not exist. -/
def candidateNames (cfg : RegistryConfig) (env : FsEnv) : List String :=
  if env.existsSync cfg.processorsDir then
    (env.listing cfg.processorsDir).filter
      (fun f => cfg.fileExtensions.contains (extname f) && !(startsWithDot f))
  else []

/-- `scanProcessorFiles()` — part_012 lines 122-141: the filtered listing
joined onto the directory path. -/
def scanProcessorFiles (cfg : RegistryConfig) (env : FsEnv) : List String :=
  (candidateNames cfg env).map (fun f => cfg.processorsDir ++ "/" ++ f)

/-- The `availableTopics` variable after the optional topic scan —
part_012 lines 186-198.  It starts as `[]`, is replaced by the listed
topics on success, and becomes `null` (`none`) only when `listTopics`
throws.  Crucially, with no accessor it stays `[]`, not `null`. -/
def availableTopicsOf : TopicSource → Option (List String)
  | .noAccessor => some []
  | .failing => none
  | .topics ts => some ts

/-- The per-candidate check at part_012 line 220: skip unless the topic
list is `null` or contains the candidate's file name. -/
def topicFilterSkips (avail : Option (List String)) (fileName : String) : Bool :=
  match avail with
  | none => false
  | some ts => !ts.contains fileName

/-- One iteration of the candidate loop of `autoDiscoverProcessors` —
part_012 lines 203-258 — acting on the registry state paired with the
`discoveredProcessors.length` counter.  Order as in the source: the
unchanged-file check (bypassed by `forceRefresh`; a thrown `statSync`
logs and falls through), then the topic-existence filter, then load and
register; on a successful registration the file is stat'ed again and
tracked in `processorFiles` (a thrown stat skips only the tracking). -/
def skipUnchangedCheck (env : FsEnv) (st : RegistryState) (force : Bool)
    (filePath fileName : String) : Bool :=
  if force then false
  else
    match mapGet st.processorFiles fileName with
    | none => false
    | some r0 =>
      match env.stat filePath with
      | some info => info.mtime = r0.mtime
      | none => false

/-- After a successful registration the file is stat'ed again and tracked
in `processorFiles`; a thrown stat skips only the tracking. -/
def trackAfterRegister (env : FsEnv) (filePath fileName : String)
    (st2 : RegistryState) : RegistryState :=
  match env.stat filePath with
  | some info =>
    let r0 : FileRecord :=
      { filePath := filePath, mtime := info.mtime, size := info.size }
    { st2 with processorFiles := mapSet st2.processorFiles fileName r0 }
  | none => st2

def discoverStep (cfg : RegistryConfig) (env : FsEnv)
    (avail : Option (List String)) (force : Bool) (now : Nat)
    (acc : RegistryState × Nat) (name : String) : RegistryState × Nat :=
  let st := acc.1
  let filePath := cfg.processorsDir ++ "/" ++ name
  let fileName := stripExt name
  if skipUnchangedCheck env st force filePath fileName then acc
  else if topicFilterSkips avail fileName then acc
  else
    match env.loader filePath with
    | none => acc
    | some processor =>
      let rs := registerProcessor st now (some fileName) (some processor)
        { source := some "auto-discovery", filePath := some filePath }
      if rs.1.success then (trackAfterRegister env filePath fileName rs.2, acc.2 + 1)
      else (rs.2, acc.2)

/-- One iteration of the deletion sweep — part_012 lines 260-271:
deregister a topic whose version record carries the `auto-discovery`
provenance tag and whose recorded file path no longer exists
(`fs.existsSync(undefined)` is `false`, so a provenance entry without a
recorded path is also removed). -/
def sweepStep (env : FsEnv) (now : Nat) (st : RegistryState) (topic : String) :
    RegistryState :=
  match mapGet st.processorVersions topic with
  | none => st
  | some info =>
    if info.options.source = some "auto-discovery" then
      let fpExists :=
        match info.options.filePath with
        | some fp => env.existsSync fp
        | none => false
      if fpExists then st else (deregisterProcessor st now (some topic)).2
    else st

/-- The deletion sweep over a snapshot of the current topics. -/
def sweepPhase (env : FsEnv) (now : Nat) (st : RegistryState) : RegistryState :=
  (getAvailableTopics st).foldl (sweepStep env now) st

/-- The summary object returned by `autoDiscoverProcessors`.  `errors`
counts exceptions thrown by `registerProcessor`, which returns failure
results instead of throwing, so it is always `0`. -/
structure DiscoveryResult where
  success : Bool
  discovered : Nat
  errors : Nat
  totalProcessors : Nat
  availableTopics : List String
  timestamp : String
deriving DecidableEq, Repr

/-- `autoDiscoverProcessors(options = {})` — part_012 lines 178-283:
resolve the available-topics list from the accessor, run the candidate
loop over the scanned directory, sweep discovery-sourced entries whose
file is gone, bump the refresh counter and return the summary. -/
def autoDiscoverProcessors (cfg : RegistryConfig) (env : FsEnv)
    (st : RegistryState) (src : TopicSource) (force : Bool) (now : Nat) :
    DiscoveryResult × RegistryState :=
  let avail := availableTopicsOf src
  let looped := (candidateNames cfg env).foldl
    (discoverStep cfg env avail force now) (st, 0)
  let swept := sweepPhase env now looped.1
  let final := { swept with stats :=
    { swept.stats with autoRefreshCount := swept.stats.autoRefreshCount + 1 } }
  ({ success := true, discovered := looped.2, errors := 0,
     totalProcessors := final.processors.length,
     availableTopics := avail.getD [], timestamp := toISOString now },
   final)

end ProcessorRegistry

section Fixtures

open ProcessorRegistry

/-- A concrete `EchoProcessor`: a `KafkaTopicProcessor` subclass whose
`processMessage` returns `{status: 'success', message: 'ok', echoed:
message}`. -/
def echoProc : Processor :=
  { ctorName := "EchoProcessor",
    behavior := .ktp (.retWithEcho
      [("status", .jstr "success"), ("message", .jstr "ok")] "echoed") }

/-- A processor whose `process` method rejects with `Error('boom')`. -/
def throwingProc : Processor :=
  { ctorName := "ThrowingProcessor", behavior := .raw (.error "boom") }

/-- A processor with a self-referential `description` property: its
`process` method is fine, but `hashProcessor` throws on it. -/
def cyclicDescProc : Processor :=
  { ctorName := "CyclicDescProcessor", description := .jcyclic,
    behavior := .raw (.ok [("status", .jstr "success")]) }

/-- A self-referential message: `const m = {data: 'test'}; m.self = m`. -/
def cyclicMsg : JsonVal := .jobj [("data", .jstr "test"), ("self", .jcyclic)]

/-- The empty registry state (a freshly constructed registry). -/
def st0 : RegistryState := {}

/-- State after `registerProcessor('orders', echoProc)` at t=1000. -/
def stOrders : RegistryState :=
  (registerProcessor st0 1000 (some "orders") (some echoProc) {}).2

/-- State holding a processor whose `process` rejects. -/
def stThrowing : RegistryState :=
  (registerProcessor st0 1000 (some "boom-topic") (some throwingProc) {}).2

/-- Default configuration: directory `./processors`, extension `.js`. -/
def cfg0 : RegistryConfig := {}

/-- A filesystem with a single valid candidate `orders.js` that loads
`echoProc`. -/
def env0 : FsEnv :=
  { existsSync := fun p => p = "./processors" || p = "./processors/orders.js",
    listing := fun p => if p = "./processors" then ["orders.js"] else [],
    stat := fun p => if p = "./processors/orders.js"
                     then some { mtime := 5, size := 10 } else none,
    loader := fun p => if p = "./processors/orders.js"
                       then some echoProc else none }

/-- A state holding a discovery-sourced entry for `orders` whose recorded
file path is `./processors/orders.js`. -/
def stProv : RegistryState :=
  { processors := [("orders", echoProc)],
    processorVersions := [("orders",
      { version := "1000-6e2c190", registeredAt := "1000Z", updatedAt := "1000Z",
        options := { source := some "auto-discovery",
                     filePath := some "./processors/orders.js" } })] }

/-- The same directory after `orders.js` was deleted. -/
def envDeleted : FsEnv :=
  { existsSync := fun p => p = "./processors",
    listing := fun _ => [],
    stat := fun _ => none,
    loader := fun _ => none }

/-- State after a first discovery pass against `env0` with the known
topic list `["orders"]` (registers `orders` and tracks `orders.js`). -/
def stDisc1 : RegistryState :=
  (ProcessorRegistry.autoDiscoverProcessors cfg0 env0 st0
    (.topics ["orders"]) false 3000).2

/-- `stDisc1` after an explicit `deregisterProcessor('orders')`. -/
def stDereg : RegistryState :=
  (ProcessorRegistry.deregisterProcessor stDisc1 4000 (some "orders")).2

end Fixtures

/-- Value of a decimal digit character (used to state injectivity of the
decimal rendering inside version strings). -/
def decChar (c : Char) : Nat := c.toNat - '0'.toNat

/-- Left-to-right decimal decoding of a digit list. -/
def decodeAux : Nat → List Char → Nat
  | acc, [] => acc
  | acc, c :: cs => decodeAux (acc * 10 + decChar c) cs

/-- Number of decimal digits of a natural number. -/
def numDigits (n : Nat) : Nat :=
  if n < 10 then 1 else numDigits (n / 10) + 1
decreasing_by
  exact Nat.div_lt_self (by omega) (by omega)

/-- A registry entry for topic `t` that carries live auto-discovery
provenance: a processor is present, its version record is tagged
`source: 'auto-discovery'`, and the recorded file path exists in `env`. -/
def provenanceLive (env : FsEnv) (st : RegistryState) (t : String) : Prop :=
  ∃ p info fp,
    mapGet st.processors t = some p ∧
    mapGet st.processorVersions t = some info ∧
    info.options.source = some "auto-discovery" ∧
    info.options.filePath = some fp ∧
    env.existsSync fp = true

section MapLemmas

theorem mapGet_mapSet {α : Type} (m : List (String × α)) (k0 k : String) (v : α) :
    mapGet (mapSet m k0 v) k = if k0 = k then some v else mapGet m k := by
  induction m with
  | nil => simp [mapGet, mapSet]
  | cons kv rest ih =>
    obtain ⟨k', v'⟩ := kv
    by_cases h : k' = k0
    · subst h
      simp only [mapSet, if_pos rfl, mapGet]
      by_cases hk : k' = k <;> simp [hk, mapGet]
    · simp only [mapSet, if_neg h, mapGet]
      by_cases hk : k' = k
      · subst hk
        have : ¬ k0 = k' := fun hh => h hh.symm
        simp [this, mapGet]
      · simp [hk, ih]

theorem mapGet_mapDelete {α : Type} (m : List (String × α)) (k0 k : String) :
    mapGet (mapDelete m k0) k = if k0 = k then none else mapGet m k := by
  induction m with
  | nil => simp [mapGet, mapDelete]
  | cons kv rest ih =>
    obtain ⟨k', v'⟩ := kv
    by_cases h : k' = k0
    · subst h
      simp only [mapDelete, if_pos rfl, ih]
      by_cases hk : k' = k
      · subst hk; simp [ih]
      · simp [hk, mapGet, ih]
    · simp only [mapDelete, if_neg h, mapGet]
      by_cases hk : k' = k
      · subst hk
        have hne : ¬ k0 = k' := fun hh => h hh.symm
        simp [hne, ih]
      · simp [hk, ih]

theorem mapGet_append {α : Type} (l1 l2 : List (String × α)) (k : String) :
    mapGet (l1 ++ l2) k =
      match mapGet l1 k with
      | some v => some v
      | none => mapGet l2 k := by
  induction l1 with
  | nil => simp [mapGet]
  | cons kv rest ih =>
    obtain ⟨k', v'⟩ := kv
    by_cases hk : k' = k <;> simp [mapGet, hk, ih]

theorem mapGet_mem_keys {α : Type} (m : List (String × α)) (k : String) (v : α)
    (h : mapGet m k = some v) : k ∈ m.map Prod.fst := by
  induction m with
  | nil => simp [mapGet] at h
  | cons kv rest ih =>
    obtain ⟨k', v'⟩ := kv
    by_cases hk : k' = k
    · subst hk; simp
    · simp only [mapGet, if_neg hk] at h
      simp [ih h]

theorem foldl_mapSet_get (fields : List (String × JsonVal))
    (acc : JsObj) (k : String) :
    mapGet (fields.foldl (fun a kv => mapSet a kv.1 kv.2) acc) k =
      match mapGet fields.reverse k with
      | some v => some v
      | none => mapGet acc k := by
  induction fields generalizing acc with
  | nil => simp [mapGet]
  | cons kv rest ih =>
    obtain ⟨k0, v0⟩ := kv
    simp only [List.foldl_cons, List.reverse_cons, ih, mapGet_append, mapGet_mapSet]
    cases hr : mapGet rest.reverse k with
    | some v => rfl
    | none =>
      by_cases hk : k0 = k <;> simp [mapGet, hk]

theorem objLit_get (fields : List (String × JsonVal)) (k : String) :
    mapGet (objLit fields) k = mapGet fields.reverse k := by
  unfold objLit
  rw [foldl_mapSet_get]
  cases mapGet fields.reverse k <;> simp [mapGet]

end MapLemmas

section ResultHelpers

open KafkaTopicProcessor

/-- Helper characterizing the `status` field of `createSuccessResult`:
the last `status` binding of `extra` wins; only when `extra` has none
does the base `'success'` survive. -/
theorem createSuccessResult_get_status (m : JsonVal) (extra : JsObj) :
    mapGet (createSuccessResult m extra) "status" =
      match mapGet extra.reverse "status" with
      | some v => some v
      | none => some (.jstr "success") := by
  unfold createSuccessResult
  rw [objLit_get, List.reverse_append, mapGet_append]
  cases mapGet extra.reverse "status" with
  | some v => rfl
  | none => simp [mapGet]

/-- Helper characterizing the `status` field of `createErrorResult`. -/
theorem createErrorResult_get_status (e : JsonVal) (extra : JsObj) :
    mapGet (createErrorResult e extra) "status" =
      match mapGet extra.reverse "status" with
      | some v => some v
      | none => some (.jstr "error") := by
  unfold createErrorResult
  rw [objLit_get, List.reverse_append, mapGet_append]
  cases mapGet extra.reverse "status" with
  | some v => rfl
  | none => simp [mapGet]

end ResultHelpers

/-- C5 counterexample: the claim says the extra fields can never override
`status`, but the source spreads `additionalData` after the explicit
keys, so an extra `status` binding wins: `createSuccessResult('hi',
{status: 'boom'})` has status `'boom'`, not `'success'`, and likewise
for `createErrorResult`. -/
theorem createResult_extra_overrides_status :
    mapGet (KafkaTopicProcessor.createSuccessResult (.jstr "hi")
      [("status", .jstr "boom")]) "status" = some (.jstr "boom") ∧
    mapGet (KafkaTopicProcessor.createSuccessResult (.jstr "hi")
      [("status", .jstr "boom")]) "status" ≠ some (.jstr "success") ∧
    mapGet (KafkaTopicProcessor.createErrorResult (.jstr "oops")
      [("status", .jstr "ok")]) "status" = some (.jstr "ok") := by
  refine ⟨rfl, ?_, rfl⟩
  intro h
  simp [KafkaTopicProcessor.createSuccessResult, objLit, mapSet, mapGet] at h

/-- C5 (amended): `createSuccessResult` / `createErrorResult` merge the
extra fields at a higher priority than the explicit `status`/`message`
keys — the spread comes last, so an extra `status` binding (its last
occurrence) overrides the base status, and only when `extra` carries no
`status` key does the result's status equal `'success'` /  `'error'`. -/
theorem createResult_extra_priority :
    (∀ (m : JsonVal) (extra : JsObj) (v : JsonVal),
       mapGet extra.reverse "status" = some v →
       mapGet (KafkaTopicProcessor.createSuccessResult m extra) "status" = some v) ∧
    (∀ (m : JsonVal) (extra : JsObj),
       mapGet extra.reverse "status" = none →
       mapGet (KafkaTopicProcessor.createSuccessResult m extra) "status"
         = some (.jstr "success")) ∧
    (∀ (e : JsonVal) (extra : JsObj) (v : JsonVal),
       mapGet extra.reverse "status" = some v →
       mapGet (KafkaTopicProcessor.createErrorResult e extra) "status" = some v) ∧
    (∀ (e : JsonVal) (extra : JsObj),
       mapGet extra.reverse "status" = none →
       mapGet (KafkaTopicProcessor.createErrorResult e extra) "status"
         = some (.jstr "error")) := by
  refine ⟨?_, ?_, ?_, ?_⟩ <;> intro x extra
  · intro v h; rw [createSuccessResult_get_status, h]
  · intro h; rw [createSuccessResult_get_status, h]
  · intro v h; rw [createErrorResult_get_status, h]
  · intro h; rw [createErrorResult_get_status, h]

/-- Witness for C5's amended theorem at concrete inputs. -/
theorem createResult_extra_priority_witness :
    (mapGet ([("status", .jstr "boom")] : JsObj).reverse "status"
       = some (.jstr "boom") ∧
     mapGet (KafkaTopicProcessor.createSuccessResult (.jstr "hi")
       [("status", .jstr "boom")]) "status" = some (.jstr "boom")) ∧
    (mapGet ([("extra", .jnum 1)] : JsObj).reverse "status" = none ∧
     mapGet (KafkaTopicProcessor.createSuccessResult (.jstr "hi")
       [("extra", .jnum 1)]) "status" = some (.jstr "success")) ∧
    (mapGet (KafkaTopicProcessor.createErrorResult (.jstr "oops")
       [("status", .jstr "ok")]) "status" = some (.jstr "ok")) ∧
    (mapGet (KafkaTopicProcessor.createErrorResult (.jstr "oops")
       [("code", .jnum 7)]) "status" = some (.jstr "error")) :=
  ⟨⟨rfl, createResult_extra_priority.1 _ _ _ rfl⟩,
   ⟨rfl, createResult_extra_priority.2.1 _ _ rfl⟩,
   createResult_extra_priority.2.2.1 _ _ _ rfl,
   createResult_extra_priority.2.2.2 _ _ rfl⟩

/-- C1: `ProcessorRegistry.processMessage` is total (its embedding returns
a result object in every case — every throw inside is caught) and obeys
the error contract: with no processor for the topic it returns
`{status: 'error', message: 'No processor found for topic: <t>', topic,
timestamp}`, and when the processor's `process` rejects, the rejection is
caught and converted to `{status: 'error', message: <exception message>,
topic, processor: <constructor name>, timestamp}`. -/
theorem processMessage_error_contract :
    (∀ (st : RegistryState) (now : Nat) (topic : String)
       (message metadata : JsonVal),
       mapGet st.processors topic = none →
       ProcessorRegistry.processMessage st now topic message metadata =
         objLit [("status", .jstr "error"),
                 ("message", .jstr ("No processor found for topic: " ++ topic)),
                 ("topic", .jstr topic),
                 ("timestamp", .jstr (toISOString now))]) ∧
    (∀ (st : RegistryState) (now : Nat) (topic : String)
       (message metadata : JsonVal) (p : Processor) (e : String),
       mapGet st.processors topic = some p →
       callProcess p message metadata = .error e →
       ProcessorRegistry.processMessage st now topic message metadata =
         objLit [("status", .jstr "error"),
                 ("message", .jstr e),
                 ("topic", .jstr topic),
                 ("processor", .jstr p.ctorName),
                 ("timestamp", .jstr (toISOString now))]) := by
  constructor
  · intro st now topic message metadata h
    unfold ProcessorRegistry.processMessage
    rw [h]
  · intro st now topic message metadata p e hp hc
    unfold ProcessorRegistry.processMessage
    rw [hp]
    dsimp only
    rw [hc]

/-- Witness for C1 at concrete inputs: a dispatch miss on the empty
registry, and a registered processor whose `process` rejects with
`Error('boom')`. -/
theorem processMessage_error_contract_witness :
    (mapGet st0.processors "ghost" = none ∧
     ProcessorRegistry.processMessage st0 5 "ghost" (.jobj []) (.jobj []) =
       objLit [("status", .jstr "error"),
               ("message", .jstr "No processor found for topic: ghost"),
               ("topic", .jstr "ghost"),
               ("timestamp", .jstr (toISOString 5))]) ∧
    (mapGet stThrowing.processors "boom-topic" = some throwingProc ∧
     callProcess throwingProc (.jobj []) (.jobj []) = .error "boom" ∧
     ProcessorRegistry.processMessage stThrowing 7 "boom-topic"
       (.jobj []) (.jobj []) =
       objLit [("status", .jstr "error"),
               ("message", .jstr "boom"),
               ("topic", .jstr "boom-topic"),
               ("processor", .jstr "ThrowingProcessor"),
               ("timestamp", .jstr (toISOString 7))]) :=
  ⟨⟨rfl, processMessage_error_contract.1 st0 5 "ghost" (.jobj []) (.jobj []) rfl⟩,
   ⟨rfl, rfl,
    processMessage_error_contract.2 stThrowing 7 "boom-topic"
      (.jobj []) (.jobj []) throwingProc "boom" rfl rfl⟩⟩

/-- C3: evaluation of the code at the failing input.  The source logs the
inbound message with a bare `JSON.stringify(message, null, 2)` inside the
`try`, so a self-referential message makes the stringify throw before
`processMessage` ever runs; the `catch` converts it to an error result.
`process` neither throws nor hangs, but the returned status is `'error'`
(with the circular-structure message), not `'success'` — even though the
`processMessage` override here returns `{status: 'success'}`.  The
repository's own test suite ("should handle circular reference in message
gracefully") and its revised `KafkaTopicProcessor` with `safeStringify`
expect `'success'`. -/
theorem process_cyclic_message_yields_error :
    KafkaTopicProcessor.process (.ret [("status", .jstr "success")])
      cyclicMsg (.jobj []) =
      [("status", .jstr "error"),
       ("message", .jstr KafkaTopicProcessor.circularErr)] ∧
    mapGet (KafkaTopicProcessor.process (.ret [("status", .jstr "success")])
      cyclicMsg (.jobj [])) "status" ≠ some (.jstr "success") := by
  refine ⟨rfl, ?_⟩
  intro h
  rw [show mapGet (KafkaTopicProcessor.process
        (.ret [("status", .jstr "success")]) cyclicMsg (.jobj [])) "status"
      = some (.jstr "error") from rfl] at h
  injection h with h1
  injection h1 with h2
  exact absurd h2 (by decide)

/-- C4: evaluation of the code at the claim's concrete scenario.  The
source's `process` calls `createSuccessResult(result)` passing the whole
`processMessage` return value as the `message` argument, so the
registered `EchoProcessor`'s structured result is nested under the
`message` key instead of being flattened: the dispatch result for topic
`'orders'` has no top-level `echoed` field and its `message` field holds
the entire `{status, message, echoed}` object.  The revised
`KafkaTopicProcessor` in the repository spreads the result
(`createSuccessResult(result.message || ..., result)`, tagged `// Fix`),
matching the claim's flat shape, and the repository's test suite asserts
the flat shape (`result.data === 'processed'`). -/
theorem processMessage_nests_processor_result :
    ProcessorRegistry.processMessage stOrders 1001 "orders"
      (.jobj [("id", .jnum 42)])
      (.jobj [("partition", .jnum 0), ("offset", .jstr "7")]) =
      [("status", .jstr "success"),
       ("message", .jobj [("status", .jstr "success"), ("message", .jstr "ok"),
                          ("echoed", .jobj [("id", .jnum 42)])]),
       ("topic", .jstr "orders"),
       ("processor", .jstr "EchoProcessor"),
       ("timestamp", .jstr (toISOString 1001))] ∧
    mapGet (ProcessorRegistry.processMessage stOrders 1001 "orders"
      (.jobj [("id", .jnum 42)])
      (.jobj [("partition", .jnum 0), ("offset", .jstr "7")])) "echoed"
      = none :=
  ⟨rfl, rfl⟩

section MutatorLemmas

open ProcessorRegistry

/-- A processor whose own `name` and `description` properties are
acyclic always hashes successfully. -/
theorem hashProcessor_ok (p : Processor) (h1 : hasCycle p.pname = false)
    (h2 : hasCycle p.description = false) :
    ∃ hv, hashProcessor p = .ok hv := by
  unfold hashProcessor
  have hname : hasCycle (if truthy p.pname then p.pname else .jstr p.ctorName)
      = false := by
    by_cases ht : truthy p.pname
    · simpa [ht] using h1
    · simp [ht, hasCycle]
  simp [hasCycle, hasCycleFields, hname, h2]

/-- Characterization of a valid, hashable `registerProcessor` call. -/
theorem registerProcessor_success_parts (st : RegistryState) (now : Nat)
    (t : String) (p : Processor) (opts : RegOptions) (hv : String)
    (ht : t ≠ "") (hp : p.hasProcess = true)
    (hh : hashProcessor p = .ok hv) :
    (registerProcessor st now (some t) (some p) opts).1.success = true ∧
    (registerProcessor st now (some t) (some p) opts).1.version
      = some (Nat.repr now ++ "-" ++ hv) ∧
    (registerProcessor st now (some t) (some p) opts).1.action
      = some (if (mapGet st.processors t).isSome then "updated" else "registered") ∧
    mapGet (registerProcessor st now (some t) (some p) opts).2.processors t
      = some p ∧
    mapGet (registerProcessor st now (some t) (some p) opts).2.processorVersions t
      = some { version := Nat.repr now ++ "-" ++ hv,
               registeredAt := toISOString now, updatedAt := toISOString now,
               options := opts } ∧
    (∀ t2, t2 ≠ t →
      mapGet (registerProcessor st now (some t) (some p) opts).2.processors t2
        = mapGet st.processors t2 ∧
      mapGet (registerProcessor st now (some t) (some p) opts).2.processorVersions t2
        = mapGet st.processorVersions t2) ∧
    (registerProcessor st now (some t) (some p) opts).2.processorFiles
      = st.processorFiles := by
  have hgen : generateProcessorVersion now p = .ok (Nat.repr now ++ "-" ++ hv) := by
    unfold generateProcessorVersion
    rw [hh]
    rfl
  unfold registerProcessor
  simp only [if_neg ht, hp, hgen, Bool.not_true, Bool.false_eq_true, if_false]
  refine ⟨trivial, trivial, trivial, ?_, ?_, ?_, trivial⟩
  · simp [mapGet_mapSet]
  · simp [mapGet_mapSet]
  · intro t2 h2
    have hne : ¬ t = t2 := fun hh => h2 hh.symm
    constructor
    · rw [mapGet_mapSet, if_neg hne]
    · rw [mapGet_mapSet, if_neg hne]

/-- A failed `registerProcessor` call leaves the state untouched: every
failure (invalid topic, invalid processor, version-generation throw) is
raised before either map is written. -/
theorem registerProcessor_fail_state (st : RegistryState) (now : Nat)
    (topic : Option String) (proc : Option Processor) (opts : RegOptions)
    (h : (registerProcessor st now topic proc opts).1.success = false) :
    (registerProcessor st now topic proc opts).2 = st := by
  unfold registerProcessor at *
  cases topic with
  | none => rfl
  | some t =>
    by_cases ht : t = ""
    · simp [ht]
    · simp only [if_neg ht] at h ⊢
      cases proc with
      | none => rfl
      | some p =>
        by_cases hp : p.hasProcess
        · simp only [hp, Bool.not_true, if_neg] at h ⊢
          cases hgen : generateProcessorVersion now p with
          | error e => simp [hgen]
          | ok v => simp [hgen] at h
        · simp [hp]

/-- A failed `deregisterProcessor` call leaves the state untouched. -/
theorem deregisterProcessor_fail_state (st : RegistryState) (now : Nat)
    (topic : Option String)
    (h : (deregisterProcessor st now topic).1.success = false) :
    (deregisterProcessor st now topic).2 = st := by
  unfold deregisterProcessor at *
  cases topic with
  | none => rfl
  | some t =>
    by_cases ht : t = ""
    · simp [ht]
    · simp only [if_neg ht] at h ⊢
      cases hm : mapGet st.processors t with
      | none => simp [hm]
      | some q => simp [hm] at h

/-- After `deregisterProcessor(t)` with a valid topic string, the topic
has no processor — whether the call succeeded (entry deleted) or failed
because the entry was already absent. -/
theorem deregisterProcessor_get_processors (st : RegistryState) (now : Nat)
    (t t2 : String) (ht : t ≠ "") :
    mapGet (deregisterProcessor st now (some t)).2.processors t2
      = if t = t2 then none else mapGet st.processors t2 := by
  unfold deregisterProcessor
  simp only [if_neg ht]
  cases hm : mapGet st.processors t with
  | none =>
    simp only
    by_cases h2 : t = t2
    · subst h2; simp [hm]
    · simp [h2]
  | some q => simp [mapGet_mapDelete]

/-- `deregisterProcessor` never touches entries of other topics. -/
theorem deregisterProcessor_preserves_other (st : RegistryState) (now : Nat)
    (topic : Option String) (t2 : String)
    (h : ∀ t, topic = some t → t ≠ t2) :
    mapGet (deregisterProcessor st now topic).2.processors t2
      = mapGet st.processors t2 ∧
    mapGet (deregisterProcessor st now topic).2.processorVersions t2
      = mapGet st.processorVersions t2 := by
  unfold deregisterProcessor
  cases topic with
  | none => exact ⟨rfl, rfl⟩
  | some t =>
    have hne : t ≠ t2 := h t rfl
    by_cases ht : t = ""
    · simp [ht]
    · simp only [if_neg ht]
      cases hm : mapGet st.processors t with
      | none => exact ⟨rfl, rfl⟩
      | some q =>
        constructor <;> simp [mapGet_mapDelete, hne]

end MutatorLemmas

section UpdateLemmas

open ProcessorRegistry

/-- `updateProcessor` on a topic with no entry fails with the NotFound
message and registers nothing. -/
theorem updateProcessor_not_found (st : RegistryState) (now : Nat)
    (t : String) (p : Processor) (opts : RegOptions)
    (ht : t ≠ "") (hp : p.hasProcess = true)
    (hm : mapGet st.processors t = none) :
    (updateProcessor st now (some t) (some p) opts).1.success = false ∧
    (updateProcessor st now (some t) (some p) opts).1.error
      = some ("No processor found for topic: " ++ t
              ++ ". Use registerProcessor instead.") ∧
    (updateProcessor st now (some t) (some p) opts).2 = st := by
  unfold updateProcessor
  simp [if_neg ht, hp, hm, failResult]

/-- A failed `updateProcessor` call leaves the state untouched, provided
version generation succeeds for the new processor and the version record
is present whenever the processor entry is (the two maps in sync) — the
failure then comes from validation or the NotFound check, both raised
before any mutation. -/
theorem updateProcessor_fail_state (st : RegistryState) (now : Nat)
    (topic : Option String) (proc : Option Processor) (opts : RegOptions)
    (hhash : ∀ p, proc = some p → ∃ hv, hashProcessor p = .ok hv)
    (hsync : ∀ t, topic = some t → (mapGet st.processors t).isSome →
      (mapGet st.processorVersions t).isSome)
    (h : (updateProcessor st now topic proc opts).1.success = false) :
    (updateProcessor st now topic proc opts).2 = st := by
  unfold updateProcessor at *
  cases topic with
  | none => rfl
  | some t =>
    by_cases ht : t = ""
    · simp [ht]
    · simp only [if_neg ht] at h ⊢
      cases proc with
      | none => rfl
      | some p =>
        by_cases hp : p.hasProcess
        · simp only [hp, Bool.not_true, Bool.false_eq_true, if_false] at h ⊢
          cases hm : mapGet st.processors t with
          | none => simp [hm]
          | some q =>
            obtain ⟨hv, hh⟩ := hhash p rfl
            have hgen : generateProcessorVersion now p
                = .ok (Nat.repr now ++ "-" ++ hv) := by
              unfold generateProcessorVersion
              rw [hh]
              rfl
            have hvs : (mapGet st.processorVersions t).isSome := by
              apply hsync t rfl
              simp [hm]
            cases hold : mapGet st.processorVersions t with
            | none => rw [hold] at hvs; simp at hvs
            | some old => simp [hm, hgen, hold] at h
        · simp [hp]

/-- The non-atomic failure of `updateProcessor`: on an existing topic,
when version generation throws (the source replaces the processor
reference before hashing), the call reports failure with the processor
map already updated and the version map untouched. -/
theorem updateProcessor_hash_throw (st : RegistryState) (now : Nat)
    (t : String) (p q : Processor) (opts : RegOptions) (e : String)
    (ht : t ≠ "") (hp : p.hasProcess = true)
    (hm : mapGet st.processors t = some q)
    (hh : hashProcessor p = .error e) :
    (updateProcessor st now (some t) (some p) opts).1.success = false ∧
    (updateProcessor st now (some t) (some p) opts).2.processors
      = mapSet st.processors t p ∧
    (updateProcessor st now (some t) (some p) opts).2.processorVersions
      = st.processorVersions := by
  have hgen : generateProcessorVersion now p = .error e := by
    unfold generateProcessorVersion
    rw [hh]
    rfl
  unfold updateProcessor
  simp [if_neg ht, hp, hm, hgen, failResult]

end UpdateLemmas

/-- C8: the intentional asymmetry between `registerProcessor` and
`updateProcessor` on a pre-existing entry.  Registering onto an existing
topic succeeds as an update (`action: 'updated'`, the stored processor is
replaced), while updating a missing topic fails with the NotFound-style
result (`success: false`, error `'No processor found for topic: <t>. Use
registerProcessor instead.'`) and registers nothing.  Validity of the
inputs means: non-empty string topic, processor with a callable `process`
method, and a hashable shape (acyclic own `name`/`description`), so that
version generation succeeds. -/
theorem register_update_asymmetry :
    (∀ (st : RegistryState) (now : Nat) (t : String) (p q : Processor)
       (opts : RegOptions) (hv : String),
       t ≠ "" → p.hasProcess = true →
       ProcessorRegistry.hashProcessor p = .ok hv →
       mapGet st.processors t = some q →
       (ProcessorRegistry.registerProcessor st now (some t) (some p) opts).1.success
         = true ∧
       (ProcessorRegistry.registerProcessor st now (some t) (some p) opts).1.action
         = some "updated" ∧
       ProcessorRegistry.getProcessor
         (ProcessorRegistry.registerProcessor st now (some t) (some p) opts).2 t
         = some p) ∧
    (∀ (st : RegistryState) (now : Nat) (t : String) (p : Processor)
       (opts : RegOptions),
       t ≠ "" → p.hasProcess = true →
       mapGet st.processors t = none →
       (ProcessorRegistry.updateProcessor st now (some t) (some p) opts).1.success
         = false ∧
       (ProcessorRegistry.updateProcessor st now (some t) (some p) opts).1.error
         = some ("No processor found for topic: " ++ t
                 ++ ". Use registerProcessor instead.") ∧
       (ProcessorRegistry.updateProcessor st now (some t) (some p) opts).2 = st) := by
  constructor
  · intro st now t p q opts hv ht hp hh hm
    obtain ⟨h1, _, h3, h4, _⟩ :=
      registerProcessor_success_parts st now t p opts hv ht hp hh
    refine ⟨h1, ?_, h4⟩
    rw [h3, hm]
    rfl
  · intro st now t p opts ht hp hm
    exact updateProcessor_not_found st now t p opts ht hp hm

/-- Witness for C8: registering a second processor onto the occupied
topic `'orders'` updates it; updating the unoccupied topic `'ghost'`
fails and changes nothing. -/
theorem register_update_asymmetry_witness :
    (("orders" : String) ≠ "" ∧ throwingProc.hasProcess = true ∧
     ProcessorRegistry.hashProcessor throwingProc
       = .ok (hashHex (jsHash ((renderJson (.jobj
           [("name", .jstr "ThrowingProcessor"),
            ("hasProcess", .jbool true),
            ("hasGetInfo", .jbool false)])).getD ""))) ∧
     mapGet stOrders.processors "orders" = some echoProc ∧
     (ProcessorRegistry.registerProcessor stOrders 2000 (some "orders")
        (some throwingProc) {}).1.success = true ∧
     (ProcessorRegistry.registerProcessor stOrders 2000 (some "orders")
        (some throwingProc) {}).1.action = some "updated" ∧
     ProcessorRegistry.getProcessor
       (ProcessorRegistry.registerProcessor stOrders 2000 (some "orders")
          (some throwingProc) {}).2 "orders" = some throwingProc) ∧
    (mapGet st0.processors "ghost" = none ∧
     (ProcessorRegistry.updateProcessor st0 5 (some "ghost")
        (some echoProc) {}).1.success = false ∧
     (ProcessorRegistry.updateProcessor st0 5 (some "ghost")
        (some echoProc) {}).1.error
       = some "No processor found for topic: ghost. Use registerProcessor instead." ∧
     (ProcessorRegistry.updateProcessor st0 5 (some "ghost")
        (some echoProc) {}).2 = st0) := by
  constructor
  · refine ⟨by decide, rfl, rfl, rfl, ?_⟩
    exact register_update_asymmetry.1 stOrders 2000 "orders" throwingProc echoProc
      {} _ (by decide) rfl rfl rfl
  · refine ⟨rfl, ?_⟩
    have h := register_update_asymmetry.2 st0 5 "ghost" echoProc {}
      (by decide) rfl rfl
    exact ⟨h.1, h.2.1, h.2.2⟩

/-- C10 counterexample: a failed mutation that is not atomic.  Updating
the occupied topic `'orders'` with a processor whose `description` is
self-referential makes `generateProcessorVersion` throw after
`this.processors.set(topic, processor)` has already run: the call reports
`success: false`, yet the processor map now holds the new processor
(`CyclicDescProcessor` instead of `EchoProcessor`) while the version map
is unchanged — exactly a replaced processor without an updated version
record. -/
theorem updateProcessor_nonatomic_failure :
    (ProcessorRegistry.updateProcessor stOrders 2000 (some "orders")
       (some cyclicDescProc) {}).1.success = false ∧
    (mapGet (ProcessorRegistry.updateProcessor stOrders 2000 (some "orders")
       (some cyclicDescProc) {}).2.processors "orders").map Processor.ctorName
      = some "CyclicDescProcessor" ∧
    (mapGet stOrders.processors "orders").map Processor.ctorName
      = some "EchoProcessor" ∧
    (mapGet (ProcessorRegistry.updateProcessor stOrders 2000 (some "orders")
       (some cyclicDescProc) {}).2.processors "orders").map Processor.ctorName
      ≠ (mapGet stOrders.processors "orders").map Processor.ctorName ∧
    (ProcessorRegistry.updateProcessor stOrders 2000 (some "orders")
       (some cyclicDescProc) {}).2.processorVersions
      = stOrders.processorVersions := by
  refine ⟨rfl, rfl, rfl, ?_, rfl⟩
  rw [show (mapGet (ProcessorRegistry.updateProcessor stOrders 2000 (some "orders")
       (some cyclicDescProc) {}).2.processors "orders").map Processor.ctorName
      = some "CyclicDescProcessor" from rfl,
     show (mapGet stOrders.processors "orders").map Processor.ctorName
      = some "EchoProcessor" from rfl]
  decide

/-- C10 (amended): failed `registerProcessor` and `deregisterProcessor`
calls are atomic — every failure is raised before any mutation — and
failed `updateProcessor` calls are atomic as long as version generation
succeeds for the new processor (and the version record is in sync with
the processor map, as every registry operation maintains).  The
exception, pinned by the last conjunct: on an existing topic,
`updateProcessor` replaces the processor reference before hashing, so a
version-generation throw (e.g. a self-referential `description`) reports
failure with the processor map updated and the version map untouched. -/
theorem failed_mutation_atomicity :
    (∀ (st : RegistryState) (now : Nat) (topic : Option String)
       (proc : Option Processor) (opts : RegOptions),
       (ProcessorRegistry.registerProcessor st now topic proc opts).1.success = false →
       (ProcessorRegistry.registerProcessor st now topic proc opts).2 = st) ∧
    (∀ (st : RegistryState) (now : Nat) (topic : Option String),
       (ProcessorRegistry.deregisterProcessor st now topic).1.success = false →
       (ProcessorRegistry.deregisterProcessor st now topic).2 = st) ∧
    (∀ (st : RegistryState) (now : Nat) (topic : Option String)
       (proc : Option Processor) (opts : RegOptions),
       (∀ p, proc = some p → ∃ hv, ProcessorRegistry.hashProcessor p = .ok hv) →
       (∀ t, topic = some t → (mapGet st.processors t).isSome →
         (mapGet st.processorVersions t).isSome) →
       (ProcessorRegistry.updateProcessor st now topic proc opts).1.success = false →
       (ProcessorRegistry.updateProcessor st now topic proc opts).2 = st) ∧
    (∀ (st : RegistryState) (now : Nat) (t : String) (p q : Processor)
       (opts : RegOptions) (e : String),
       t ≠ "" → p.hasProcess = true →
       mapGet st.processors t = some q →
       ProcessorRegistry.hashProcessor p = .error e →
       (ProcessorRegistry.updateProcessor st now (some t) (some p) opts).1.success
         = false ∧
       (ProcessorRegistry.updateProcessor st now (some t) (some p) opts).2.processors
         = mapSet st.processors t p ∧
       (ProcessorRegistry.updateProcessor st now (some t) (some p) opts).2.processorVersions
         = st.processorVersions) :=
  ⟨registerProcessor_fail_state, deregisterProcessor_fail_state,
   updateProcessor_fail_state, updateProcessor_hash_throw⟩

/-- Witness for C10's amended theorem at concrete inputs: an invalid
register (no process method on the processor — modeled by
`hasProcess := false`), a deregister miss, an update miss, and the
hash-throw case. -/
theorem failed_mutation_atomicity_witness :
    ((ProcessorRegistry.registerProcessor st0 1 (some "t")
        (some { echoProc with hasProcess := false }) {}).1.success = false ∧
     (ProcessorRegistry.registerProcessor st0 1 (some "t")
        (some { echoProc with hasProcess := false }) {}).2 = st0) ∧
    ((ProcessorRegistry.deregisterProcessor st0 2 (some "ghost")).1.success = false ∧
     (ProcessorRegistry.deregisterProcessor st0 2 (some "ghost")).2 = st0) ∧
    ((ProcessorRegistry.updateProcessor st0 3 (some "ghost")
        (some echoProc) {}).1.success = false ∧
     (ProcessorRegistry.updateProcessor st0 3 (some "ghost")
        (some echoProc) {}).2 = st0) ∧
    (("orders" : String) ≠ "" ∧ cyclicDescProc.hasProcess = true ∧
     mapGet stOrders.processors "orders" = some echoProc ∧
     ProcessorRegistry.hashProcessor cyclicDescProc
       = .error KafkaTopicProcessor.circularErr ∧
     (ProcessorRegistry.updateProcessor stOrders 2000 (some "orders")
        (some cyclicDescProc) {}).1.success = false ∧
     (ProcessorRegistry.updateProcessor stOrders 2000 (some "orders")
        (some cyclicDescProc) {}).2.processors
       = mapSet stOrders.processors "orders" cyclicDescProc ∧
     (ProcessorRegistry.updateProcessor stOrders 2000 (some "orders")
        (some cyclicDescProc) {}).2.processorVersions
       = stOrders.processorVersions) := by
  refine ⟨⟨rfl, ?_⟩, ⟨rfl, ?_⟩, ⟨rfl, ?_⟩, by decide, rfl, rfl, rfl, ?_⟩
  · exact failed_mutation_atomicity.1 st0 1 (some "t")
      (some { echoProc with hasProcess := false }) {} rfl
  · exact failed_mutation_atomicity.2.1 st0 2 (some "ghost") rfl
  · exact failed_mutation_atomicity.2.2.1 st0 3 (some "ghost") (some echoProc) {}
      (fun p hp => by
        cases hp
        exact ⟨_, rfl⟩)
      (fun t htop hsome => by rw [show mapGet st0.processors t = none from rfl] at hsome; simp at hsome)
      rfl
  · exact failed_mutation_atomicity.2.2.2 stOrders 2000 "orders" cyclicDescProc
      echoProc {} KafkaTopicProcessor.circularErr (by decide) rfl rfl rfl

section VersionLemmas

theorem decodeAux_nil (acc : Nat) : decodeAux acc [] = acc := rfl

theorem decodeAux_cons (acc : Nat) (c : Char) (cs : List Char) :
    decodeAux acc (c :: cs) = decodeAux (acc * 10 + decChar c) cs := rfl

theorem decChar_digitChar : ∀ m, m < 10 → decChar (Nat.digitChar m) = m := by
  decide

theorem digitChar_ne_dash : ∀ m, m < 10 → Nat.digitChar m ≠ '-' := by
  decide

/-- Every character produced by `Nat.toDigitsCore 10` on top of a
dash-free accumulator is dash-free. -/
theorem toDigitsCore_no_dash :
    ∀ (fuel n : Nat) (ds : List Char), (∀ c ∈ ds, c ≠ '-') →
      ∀ c ∈ Nat.toDigitsCore 10 fuel n ds, c ≠ '-' := by
  intro fuel
  induction fuel with
  | zero =>
    intro n ds hds c hc
    exact hds c hc
  | succ f ih =>
    intro n ds hds c hc
    have hd : Nat.digitChar (n % 10) ≠ '-' :=
      digitChar_ne_dash _ (Nat.mod_lt _ (by omega))
    have hcons : ∀ c ∈ Nat.digitChar (n % 10) :: ds, c ≠ '-' := by
      intro c' hc'
      rcases List.mem_cons.mp hc' with h | h
      · rw [h]; exact hd
      · exact hds c' h
    simp only [Nat.toDigitsCore] at hc
    by_cases h0 : n / 10 = 0
    · rw [if_pos h0] at hc
      exact hcons c hc
    · rw [if_neg h0] at hc
      exact ih _ _ hcons c hc

/-- Decoding inverts `Nat.toDigitsCore 10` (with enough fuel). -/
theorem toDigitsCore_decode :
    ∀ (fuel n : Nat), n < fuel → ∀ (acc : Nat) (ds : List Char),
      decodeAux acc (Nat.toDigitsCore 10 fuel n ds)
        = decodeAux (acc * 10 ^ numDigits n + n) ds := by
  intro fuel
  induction fuel with
  | zero =>
    intro n hn
    omega
  | succ f ih =>
    intro n hn acc ds
    simp only [Nat.toDigitsCore]
    by_cases h0 : n / 10 = 0
    · have hlt : n < 10 := by omega
      have hm : n % 10 < 10 := by omega
      rw [if_pos h0]
      have hnd : numDigits n = 1 := by
        unfold numDigits
        rw [if_pos hlt]
      rw [hnd]
      rw [decodeAux_cons, decChar_digitChar _ hm, pow_one, Nat.mod_eq_of_lt hlt]
    · have hge : 10 ≤ n := by omega
      have hm : n % 10 < 10 := by omega
      have hlt' : n / 10 < f := by omega
      rw [if_neg h0, ih _ hlt']
      rw [decodeAux_cons, decChar_digitChar _ hm]
      have hnd : numDigits n = numDigits (n / 10) + 1 := by
        conv_lhs => unfold numDigits
        rw [if_neg (by omega)]
      rw [hnd, pow_succ]
      generalize 10 ^ numDigits (n / 10) = A
      have harg : (acc * A + n / 10) * 10 + n % 10 = acc * (A * 10) + n := by
        have h1 : acc * (A * 10) = acc * A * 10 := by ring
        rw [h1]
        generalize acc * A = B
        omega
      rw [harg]

/-- Decoding the decimal digits of `n` gives back `n`. -/
theorem decode_toDigits (n : Nat) : decodeAux 0 (Nat.toDigits 10 n) = n := by
  unfold Nat.toDigits
  rw [toDigitsCore_decode (n + 1) n (by omega) 0 []]
  rw [decodeAux_nil]
  simp

theorem repr_data_eq (n : Nat) : (Nat.repr n).data = Nat.toDigits 10 n := rfl

/-- The decimal representation of a natural number contains no dash. -/
theorem repr_no_dash (n : Nat) : ∀ c ∈ (Nat.repr n).data, c ≠ '-' := by
  rw [repr_data_eq]
  exact toDigitsCore_no_dash (n + 1) n [] (by intro c hc; cases hc)

/-- `Nat.repr` is injective. -/
theorem repr_inj {n1 n2 : Nat} (h : Nat.repr n1 = Nat.repr n2) : n1 = n2 := by
  have hd : Nat.toDigits 10 n1 = Nat.toDigits 10 n2 := by
    rw [← repr_data_eq, ← repr_data_eq, h]
  have := congrArg (decodeAux 0) hd
  rwa [decode_toDigits, decode_toDigits] at this

theorem takeWhile_append_dash (l r : List Char) (h : ∀ c ∈ l, c ≠ '-') :
    (l ++ '-' :: r).takeWhile (fun c => c != '-') = l := by
  induction l with
  | nil => simp [List.takeWhile]
  | cons c cs ih =>
    have hc : (c != '-') = true := by
      simp [h c (List.mem_cons_self c cs)]
    simp only [List.cons_append, List.takeWhile_cons, hc, if_true]
    rw [ih (fun c' hc' => h c' (List.mem_cons_of_mem c hc'))]

theorem strData_append (s t : String) : (s ++ t).data = s.data ++ t.data := by
  cases s
  cases t
  rfl

/-- Two version strings `` `${t}-${hash}` `` built from different
timestamps differ, whatever the hash parts are. -/
theorem versionString_ne_of_now_ne (n1 n2 : Nat) (h1 h2 : String)
    (hne : n1 ≠ n2) :
    Nat.repr n1 ++ "-" ++ h1 ≠ Nat.repr n2 ++ "-" ++ h2 := by
  intro h
  have hdata : (Nat.repr n1).data ++ '-' :: h1.data
      = (Nat.repr n2).data ++ '-' :: h2.data := by
    have hq := congrArg String.data h
    rw [strData_append, strData_append, strData_append, strData_append] at hq
    simpa [List.append_assoc] using hq
  have e1 := congrArg (List.takeWhile (fun c => c != '-')) hdata
  rw [takeWhile_append_dash _ _ (repr_no_dash n1),
      takeWhile_append_dash _ _ (repr_no_dash n2)] at e1
  apply hne
  have := congrArg (decodeAux 0) e1
  rw [repr_data_eq, repr_data_eq, decode_toDigits, decode_toDigits] at this
  exact this

/-- A successful `registerProcessor` call returns the version
`` `${Date.now()}-${hashProcessor(processor)}` ``. -/
theorem registerProcessor_success_version (st : RegistryState) (now : Nat)
    (topic : Option String) (proc : Option Processor) (opts : RegOptions)
    (h : (ProcessorRegistry.registerProcessor st now topic proc opts).1.success
      = true) :
    ∃ t p hv, topic = some t ∧ proc = some p ∧
      ProcessorRegistry.hashProcessor p = .ok hv ∧
      (ProcessorRegistry.registerProcessor st now topic proc opts).1.version
        = some (Nat.repr now ++ "-" ++ hv) := by
  unfold ProcessorRegistry.registerProcessor at *
  cases topic with
  | none => simp [ProcessorRegistry.failResult] at h
  | some t =>
    by_cases ht : t = ""
    · simp [ht, ProcessorRegistry.failResult] at h
    · simp only [if_neg ht] at h ⊢
      cases proc with
      | none => simp [ProcessorRegistry.failResult] at h
      | some p =>
        by_cases hp : p.hasProcess
        · simp only [hp, Bool.not_true, Bool.false_eq_true, if_false] at h ⊢
          cases hh : ProcessorRegistry.hashProcessor p with
          | error e =>
            have hgen : ProcessorRegistry.generateProcessorVersion now p
                = .error e := by
              unfold ProcessorRegistry.generateProcessorVersion
              rw [hh]
              rfl
            simp [hgen, ProcessorRegistry.failResult] at h
          | ok hv =>
            have hgen : ProcessorRegistry.generateProcessorVersion now p
                = .ok (Nat.repr now ++ "-" ++ hv) := by
              unfold ProcessorRegistry.generateProcessorVersion
              rw [hh]
              rfl
            refine ⟨t, p, hv, rfl, rfl, hh, ?_⟩
            simp [hgen]
        · simp [hp, ProcessorRegistry.failResult] at h

end VersionLemmas

/-- C9 counterexample: two successful registrations of the same topic
with structurally identical processors at the same `Date.now()` reading
return the same version — the timestamp salt has millisecond resolution,
so it does not make consecutive same-millisecond versions distinct.
(`stOrders` is exactly the state after the first call.) -/
theorem register_same_timestamp_version_collision :
    (ProcessorRegistry.registerProcessor st0 1000 (some "orders")
       (some echoProc) {}).1.success = true ∧
    (ProcessorRegistry.registerProcessor stOrders 1000 (some "orders")
       (some echoProc) {}).1.success = true ∧
    (ProcessorRegistry.registerProcessor stOrders 1000 (some "orders")
       (some echoProc) {}).1.action = some "updated" ∧
    (ProcessorRegistry.registerProcessor st0 1000 (some "orders")
       (some echoProc) {}).1.version.isSome = true ∧
    (ProcessorRegistry.registerProcessor stOrders 1000 (some "orders")
       (some echoProc) {}).1.version
      = (ProcessorRegistry.registerProcessor st0 1000 (some "orders")
       (some echoProc) {}).1.version :=
  ⟨rfl, rfl, rfl, rfl, rfl⟩

/-- C9 (amended): a fresh version token is generated on every
register/update call, salted with the current `Date.now()` reading — so
the version returned by a second `registerProcessor(T, P2)` differs from
the first call's whenever the two calls observe different timestamps,
even for structurally identical processors.  Two calls within the same
millisecond with identical processor shapes return equal versions (see
the counterexample). -/
theorem register_version_timestamp_salted (st : RegistryState)
    (now1 now2 : Nat) (t : String) (p1 p2 : Processor)
    (opts1 opts2 : RegOptions)
    (hnow : now1 ≠ now2)
    (h1 : (ProcessorRegistry.registerProcessor st now1 (some t) (some p1)
       opts1).1.success = true)
    (h2 : (ProcessorRegistry.registerProcessor
       (ProcessorRegistry.registerProcessor st now1 (some t) (some p1) opts1).2
       now2 (some t) (some p2) opts2).1.success = true) :
    (ProcessorRegistry.registerProcessor
       (ProcessorRegistry.registerProcessor st now1 (some t) (some p1) opts1).2
       now2 (some t) (some p2) opts2).1.version
      ≠ (ProcessorRegistry.registerProcessor st now1 (some t) (some p1)
       opts1).1.version := by
  obtain ⟨t1, q1, hv1, _, _, _, hver1⟩ :=
    registerProcessor_success_version _ _ _ _ _ h1
  obtain ⟨t2, q2, hv2, _, _, _, hver2⟩ :=
    registerProcessor_success_version _ _ _ _ _ h2
  rw [hver1, hver2]
  intro h
  exact versionString_ne_of_now_ne now2 now1 hv2 hv1
    (fun hh => hnow hh.symm) (Option.some.inj h)

/-- Witness for C9's amended theorem: the same double registration as
the counterexample but at distinct timestamps yields distinct versions. -/
theorem register_version_timestamp_salted_witness :
    (1000 : Nat) ≠ 2000 ∧
    (ProcessorRegistry.registerProcessor st0 1000 (some "orders")
       (some echoProc) {}).1.success = true ∧
    (ProcessorRegistry.registerProcessor stOrders 2000 (some "orders")
       (some echoProc) {}).1.success = true ∧
    (ProcessorRegistry.registerProcessor stOrders 2000 (some "orders")
       (some echoProc) {}).1.version
      ≠ (ProcessorRegistry.registerProcessor st0 1000 (some "orders")
       (some echoProc) {}).1.version :=
  ⟨by decide, rfl, rfl,
   register_version_timestamp_salted st0 1000 2000 "orders" echoProc echoProc
     {} {} (by decide) rfl rfl⟩

section DiscoveryLemmas

open ProcessorRegistry

/-- `registerProcessor` never touches entries of other topics, whatever
its outcome. -/
theorem registerProcessor_preserves_other (st : RegistryState) (now : Nat)
    (topic : Option String) (proc : Option Processor) (opts : RegOptions)
    (t2 : String) (h : ∀ t, topic = some t → t ≠ t2) :
    mapGet (registerProcessor st now topic proc opts).2.processors t2
      = mapGet st.processors t2 ∧
    mapGet (registerProcessor st now topic proc opts).2.processorVersions t2
      = mapGet st.processorVersions t2 := by
  unfold registerProcessor
  cases topic with
  | none => exact ⟨rfl, rfl⟩
  | some t =>
    have hne : ¬ t = t2 := h t rfl
    by_cases ht : t = ""
    · simp [ht]
    · simp only [if_neg ht]
      cases proc with
      | none => exact ⟨rfl, rfl⟩
      | some p =>
        by_cases hp : p.hasProcess
        · simp only [hp, Bool.not_true, Bool.false_eq_true, if_false]
          cases hgen : generateProcessorVersion now p with
          | error e => exact ⟨rfl, rfl⟩
          | ok v => constructor <;> simp [mapGet_mapSet, hne]
        · simp [hp]

/-- A successful `registerProcessor` call stores the processor and a
fresh version record carrying the passed options. -/
theorem registerProcessor_success_state (st : RegistryState) (now : Nat)
    (topic : Option String) (proc : Option Processor) (opts : RegOptions)
    (h : (registerProcessor st now topic proc opts).1.success = true) :
    ∃ t p hv, topic = some t ∧ proc = some p ∧
      hashProcessor p = .ok hv ∧
      (registerProcessor st now topic proc opts).2.processors
        = mapSet st.processors t p ∧
      (registerProcessor st now topic proc opts).2.processorVersions
        = mapSet st.processorVersions t
          { version := Nat.repr now ++ "-" ++ hv,
            registeredAt := toISOString now, updatedAt := toISOString now,
            options := opts } ∧
      (registerProcessor st now topic proc opts).2.processorFiles
        = st.processorFiles := by
  unfold registerProcessor at *
  cases topic with
  | none => simp [failResult] at h
  | some t =>
    by_cases ht : t = ""
    · simp [ht, failResult] at h
    · simp only [if_neg ht] at h ⊢
      cases proc with
      | none => simp [failResult] at h
      | some p =>
        by_cases hp : p.hasProcess
        · simp only [hp, Bool.not_true, Bool.false_eq_true, if_false] at h ⊢
          cases hh : hashProcessor p with
          | error e =>
            have hgen : generateProcessorVersion now p = .error e := by
              unfold generateProcessorVersion
              rw [hh]
              rfl
            simp [hgen, failResult] at h
          | ok hv =>
            have hgen : generateProcessorVersion now p
                = .ok (Nat.repr now ++ "-" ++ hv) := by
              unfold generateProcessorVersion
              rw [hh]
              rfl
            refine ⟨t, p, hv, rfl, rfl, hh, ?_⟩
            simp [hgen]
        · simp [hp, failResult] at h

/-- `deregisterProcessor` cannot create an entry. -/
theorem deregisterProcessor_get_none (st : RegistryState) (now : Nat)
    (topic : Option String) (t : String)
    (h : mapGet st.processors t = none) :
    mapGet (deregisterProcessor st now topic).2.processors t = none := by
  cases topic with
  | none => exact h
  | some k =>
    by_cases hk : k = ""
    · unfold deregisterProcessor
      simp [hk, h]
    · rw [deregisterProcessor_get_processors st now k t hk]
      by_cases hkt : k = t
      · simp [hkt]
      · simp [hkt, h]

/-- `trackAfterRegister` only touches `processorFiles`. -/
theorem trackAfterRegister_maps (env : FsEnv) (filePath fileName : String)
    (st2 : RegistryState) :
    (trackAfterRegister env filePath fileName st2).processors = st2.processors ∧
    (trackAfterRegister env filePath fileName st2).processorVersions
      = st2.processorVersions := by
  unfold trackAfterRegister
  cases env.stat filePath with
  | some i => exact ⟨rfl, rfl⟩
  | none => exact ⟨rfl, rfl⟩

/-- The candidate loop body preserves a live provenance entry, provided
the scanned candidate's own path exists (a re-registration of the same
topic records that path). -/
theorem discoverStep_preserves_provenance (cfg : RegistryConfig) (env : FsEnv)
    (avail : Option (List String)) (force : Bool) (now : Nat)
    (acc : RegistryState × Nat) (name : String) (t : String)
    (he : env.existsSync (cfg.processorsDir ++ "/" ++ name) = true)
    (hP : provenanceLive env acc.1 t) :
    provenanceLive env (discoverStep cfg env avail force now acc name).1 t := by
  unfold discoverStep
  dsimp only
  cases hsk : skipUnchangedCheck env acc.1 force
      (cfg.processorsDir ++ "/" ++ name) (stripExt name) with
  | true => simpa using hP
  | false =>
    simp only [Bool.false_eq_true, if_false]
    cases hfil : topicFilterSkips avail (stripExt name) with
    | true => simpa using hP
    | false =>
      simp only [Bool.false_eq_true, if_false]
      split
      next => exact hP
      next q hq =>
        split
        next hs =>
          obtain ⟨tr, pr, hv, htr, hpr, hh, hproc, hver, _⟩ :=
            registerProcessor_success_state _ _ _ _ _ hs
          injection htr with htre
          injection hpr with hpre
          subst htre
          subst hpre
          obtain ⟨hm1, hm2⟩ := trackAfterRegister_maps env
            (cfg.processorsDir ++ "/" ++ name) (stripExt name)
            (registerProcessor acc.1 now (some (stripExt name)) (some q)
              { source := some "auto-discovery",
                filePath := some (cfg.processorsDir ++ "/" ++ name) }).2
          by_cases hft : stripExt name = t
          · subst hft
            refine ⟨q,
              { version := Nat.repr now ++ "-" ++ hv,
                registeredAt := toISOString now, updatedAt := toISOString now,
                options := ⟨some "auto-discovery",
                  some (cfg.processorsDir ++ "/" ++ name)⟩ },
              cfg.processorsDir ++ "/" ++ name, ?_, ?_, rfl, rfl, he⟩
            · show mapGet (trackAfterRegister env _ _ _).processors _ = _
              rw [hm1, hproc, mapGet_mapSet, if_pos rfl]
            · show mapGet (trackAfterRegister env _ _ _).processorVersions _ = _
              rw [hm2, hver, mapGet_mapSet, if_pos rfl]
          · obtain ⟨p, info, fp, g1, g2, g3, g4, g5⟩ := hP
            refine ⟨p, info, fp, ?_, ?_, g3, g4, g5⟩
            · show mapGet (trackAfterRegister env _ _ _).processors _ = _
              rw [hm1, hproc, mapGet_mapSet, if_neg hft, g1]
            · show mapGet (trackAfterRegister env _ _ _).processorVersions _ = _
              rw [hm2, hver, mapGet_mapSet, if_neg hft, g2]
        next hs =>
          have hs' : (registerProcessor acc.1 now (some (stripExt name)) (some q)
              { source := some "auto-discovery",
                filePath := some (cfg.processorsDir ++ "/" ++ name) }).1.success
              = false := by
            cases hb : (registerProcessor acc.1 now (some (stripExt name)) (some q)
              { source := some "auto-discovery",
                filePath := some (cfg.processorsDir ++ "/" ++ name) }).1.success
            · rfl
            · exact absurd hb hs
          rw [registerProcessor_fail_state _ _ _ _ _ hs']
          exact hP

/-- With `forceRefresh` set, a candidate that passes the topic filter and
loads a valid, hashable processor leaves a live provenance entry for its
derived topic. -/
theorem discoverStep_registers (cfg : RegistryConfig) (env : FsEnv)
    (avail : Option (List String)) (now : Nat)
    (acc : RegistryState × Nat) (name : String) (p : Processor)
    (he : env.existsSync (cfg.processorsDir ++ "/" ++ name) = true)
    (hfil : topicFilterSkips avail (stripExt name) = false)
    (hload : env.loader (cfg.processorsDir ++ "/" ++ name) = some p)
    (hp : p.hasProcess = true) (ht : stripExt name ≠ "")
    (hh : ∃ hv, hashProcessor p = .ok hv) :
    provenanceLive env
      (discoverStep cfg env avail true now acc name).1 (stripExt name) := by
  obtain ⟨hv, hhv⟩ := hh
  obtain ⟨h1, _, _, h4, h5, _, _⟩ :=
    registerProcessor_success_parts acc.1 now (stripExt name) p
      { source := some "auto-discovery",
        filePath := some (cfg.processorsDir ++ "/" ++ name) } hv ht hp hhv
  unfold discoverStep
  dsimp only
  have hsk : skipUnchangedCheck env acc.1 true
      (cfg.processorsDir ++ "/" ++ name) (stripExt name) = false := rfl
  rw [hsk, hfil]
  simp only [Bool.false_eq_true, if_false, hload, h1, if_true]
  obtain ⟨hm1, hm2⟩ := trackAfterRegister_maps env
    (cfg.processorsDir ++ "/" ++ name) (stripExt name)
    (registerProcessor acc.1 now (some (stripExt name)) (some p)
      { source := some "auto-discovery",
        filePath := some (cfg.processorsDir ++ "/" ++ name) }).2
  refine ⟨p,
    { version := Nat.repr now ++ "-" ++ hv,
      registeredAt := toISOString now, updatedAt := toISOString now,
      options := ⟨some "auto-discovery",
        some (cfg.processorsDir ++ "/" ++ name)⟩ },
    cfg.processorsDir ++ "/" ++ name, ?_, ?_, rfl, rfl, he⟩
  · show mapGet (trackAfterRegister env _ _ _).processors _ = _
    rw [hm1, h4]
  · show mapGet (trackAfterRegister env _ _ _).processorVersions _ = _
    rw [hm2, h5]

end DiscoveryLemmas

section SweepLemmas

open ProcessorRegistry

/-- The whole candidate loop preserves a live provenance entry when every
scanned candidate's path exists. -/
theorem foldl_discoverStep_preserves (cfg : RegistryConfig) (env : FsEnv)
    (avail : Option (List String)) (force : Bool) (now : Nat) (t : String) :
    ∀ (names : List String) (acc : RegistryState × Nat),
      (∀ nm ∈ names, env.existsSync (cfg.processorsDir ++ "/" ++ nm) = true) →
      provenanceLive env acc.1 t →
      provenanceLive env
        (names.foldl (discoverStep cfg env avail force now) acc).1 t := by
  intro names
  induction names with
  | nil => intro acc _ hP; exact hP
  | cons nm rest ih =>
    intro acc he hP
    simp only [List.foldl_cons]
    exact ih _ (fun x hx => he x (List.mem_cons_of_mem nm hx))
      (discoverStep_preserves_provenance cfg env avail force now acc nm t
        (he nm (List.mem_cons_self nm rest)) hP)

/-- After a forced candidate loop containing a valid, hashable candidate
that passes the topic filter, the candidate's topic has a live provenance
entry. -/
theorem foldl_discoverStep_registers (cfg : RegistryConfig) (env : FsEnv)
    (avail : Option (List String)) (now : Nat) (name : String) (p : Processor)
    (hfil : topicFilterSkips avail (stripExt name) = false)
    (hload : env.loader (cfg.processorsDir ++ "/" ++ name) = some p)
    (hp : p.hasProcess = true) (ht : stripExt name ≠ "")
    (hh : ∃ hv, hashProcessor p = .ok hv) :
    ∀ (names : List String) (acc : RegistryState × Nat),
      name ∈ names →
      (∀ nm ∈ names, env.existsSync (cfg.processorsDir ++ "/" ++ nm) = true) →
      provenanceLive env
        (names.foldl (discoverStep cfg env avail true now) acc).1
        (stripExt name) := by
  intro names
  induction names with
  | nil => intro acc hmem; cases hmem
  | cons nm rest ih =>
    intro acc hmem he
    simp only [List.foldl_cons]
    rcases List.mem_cons.mp hmem with heq | hrest
    · subst heq
      exact foldl_discoverStep_preserves cfg env avail true now (stripExt name)
        rest _ (fun x hx => he x (List.mem_cons_of_mem name hx))
        (discoverStep_registers cfg env avail now acc name p
          (he name (List.mem_cons_self name rest)) hfil hload hp ht hh)
    · exact ih _ hrest (fun x hx => he x (List.mem_cons_of_mem nm hx))

/-- A sweep iteration preserves a live provenance entry: the swept
topic's own recorded path exists, so it is not deregistered, and
deregistering another topic does not touch it. -/
theorem sweepStep_preserves_provenance (env : FsEnv) (now : Nat)
    (st : RegistryState) (k t : String)
    (hP : provenanceLive env st t) :
    provenanceLive env (sweepStep env now st k) t := by
  obtain ⟨p, info, fp, g1, g2, g3, g4, g5⟩ := hP
  unfold sweepStep
  split
  next => exact ⟨p, info, fp, g1, g2, g3, g4, g5⟩
  next infok hvk =>
    by_cases hsrc : infok.options.source = some "auto-discovery"
    · simp only [hsrc, if_true]
      by_cases hkt : k = t
      · subst hkt
        rw [g2] at hvk
        injection hvk with hik
        subst hik
        simp only [g4, g5, if_true]
        exact ⟨p, info, fp, g1, g2, g3, g4, g5⟩
      · have hother := deregisterProcessor_preserves_other st now (some k) t
          (fun t' ht' => by injection ht' with h2; rw [← h2]; exact hkt)
        cases hfp : infok.options.filePath with
        | some fpk =>
          simp only [hfp]
          by_cases hex : env.existsSync fpk = true
          · simp only [hex, if_true]
            exact ⟨p, info, fp, g1, g2, g3, g4, g5⟩
          · have hex' : env.existsSync fpk = false := by
              cases hb : env.existsSync fpk
              · rfl
              · exact absurd hb hex
            simp only [hex', Bool.false_eq_true, if_false]
            exact ⟨p, info, fp, by rw [hother.1]; exact g1,
              by rw [hother.2]; exact g2, g3, g4, g5⟩
        | none =>
          simp only [hfp, Bool.false_eq_true, if_false]
          exact ⟨p, info, fp, by rw [hother.1]; exact g1,
            by rw [hother.2]; exact g2, g3, g4, g5⟩
    · simp only [hsrc, if_false]
      exact ⟨p, info, fp, g1, g2, g3, g4, g5⟩

/-- The whole sweep preserves a live provenance entry. -/
theorem sweepFold_preserves_provenance (env : FsEnv) (now : Nat) (t : String) :
    ∀ (keys : List String) (st : RegistryState),
      provenanceLive env st t →
      provenanceLive env (keys.foldl (sweepStep env now) st) t := by
  intro keys
  induction keys with
  | nil => intro st hP; exact hP
  | cons k rest ih =>
    intro st hP
    simp only [List.foldl_cons]
    exact ih _ (sweepStep_preserves_provenance env now st k t hP)

/-- A sweep iteration cannot create an entry. -/
theorem sweepStep_get_none (env : FsEnv) (now : Nat) (st : RegistryState)
    (k t : String) (h : mapGet st.processors t = none) :
    mapGet (sweepStep env now st k).processors t = none := by
  unfold sweepStep
  split
  next => exact h
  next infok hvk =>
    by_cases hsrc : infok.options.source = some "auto-discovery"
    · simp only [hsrc, if_true]
      cases hfp : infok.options.filePath with
      | some fpk =>
        simp only [hfp]
        by_cases hex : env.existsSync fpk = true
        · simp only [hex, if_true]
          exact h
        · have hex' : env.existsSync fpk = false := by
            cases hb : env.existsSync fpk
            · rfl
            · exact absurd hb hex
          simp only [hex', Bool.false_eq_true, if_false]
          exact deregisterProcessor_get_none st now (some k) t h
      | none =>
        simp only [hfp, Bool.false_eq_true, if_false]
        exact deregisterProcessor_get_none st now (some k) t h
    · simp only [hsrc, if_false]
      exact h

/-- The whole sweep cannot create an entry. -/
theorem sweepFold_get_none (env : FsEnv) (now : Nat) (t : String) :
    ∀ (keys : List String) (st : RegistryState),
      mapGet st.processors t = none →
      mapGet ((keys.foldl (sweepStep env now) st)).processors t = none := by
  intro keys
  induction keys with
  | nil => intro st h; exact h
  | cons k rest ih =>
    intro st h
    simp only [List.foldl_cons]
    exact ih _ (sweepStep_get_none env now st k t h)

end SweepLemmas

section SweepRemovalLemmas

open ProcessorRegistry

/-- A loop iteration for a candidate with a different derived topic
leaves `t`'s entries in both maps untouched. -/
theorem discoverStep_preserves_other (cfg : RegistryConfig) (env : FsEnv)
    (avail : Option (List String)) (force : Bool) (now : Nat)
    (acc : RegistryState × Nat) (name : String) (t : String)
    (hne : stripExt name ≠ t) :
    mapGet (discoverStep cfg env avail force now acc name).1.processors t
      = mapGet acc.1.processors t ∧
    mapGet (discoverStep cfg env avail force now acc name).1.processorVersions t
      = mapGet acc.1.processorVersions t := by
  have hreg := registerProcessor_preserves_other acc.1 now (some (stripExt name))
  unfold discoverStep
  dsimp only
  split
  next => exact ⟨rfl, rfl⟩
  next =>
    split
    next => exact ⟨rfl, rfl⟩
    next =>
      split
      next => exact ⟨rfl, rfl⟩
      next q hq =>
        obtain ⟨hr1, hr2⟩ := hreg (some q)
          { source := some "auto-discovery",
            filePath := some (cfg.processorsDir ++ "/" ++ name) } t
          (fun t' ht' => by injection ht' with h2; rw [← h2]; exact hne)
        split
        next hs =>
          obtain ⟨hm1, hm2⟩ := trackAfterRegister_maps env
            (cfg.processorsDir ++ "/" ++ name) (stripExt name)
            (registerProcessor acc.1 now (some (stripExt name)) (some q)
              { source := some "auto-discovery",
                filePath := some (cfg.processorsDir ++ "/" ++ name) }).2
          constructor
          · show mapGet (trackAfterRegister env _ _ _).processors _ = _
            rw [hm1, hr1]
          · show mapGet (trackAfterRegister env _ _ _).processorVersions _ = _
            rw [hm2, hr2]
        next hs => exact ⟨hr1, hr2⟩

/-- The whole candidate loop leaves `t`'s entries untouched when no
candidate derives topic `t`. -/
theorem foldl_discoverStep_preserves_other (cfg : RegistryConfig) (env : FsEnv)
    (avail : Option (List String)) (force : Bool) (now : Nat) (t : String) :
    ∀ (names : List String) (acc : RegistryState × Nat),
      (∀ nm ∈ names, stripExt nm ≠ t) →
      mapGet ((names.foldl (discoverStep cfg env avail force now) acc)).1.processors t
        = mapGet acc.1.processors t ∧
      mapGet ((names.foldl (discoverStep cfg env avail force now) acc)).1.processorVersions t
        = mapGet acc.1.processorVersions t := by
  intro names
  induction names with
  | nil => intro acc _; exact ⟨rfl, rfl⟩
  | cons nm rest ih =>
    intro acc hne
    simp only [List.foldl_cons]
    obtain ⟨s1, s2⟩ := discoverStep_preserves_other cfg env avail force now acc nm t
      (hne nm (List.mem_cons_self nm rest))
    obtain ⟨f1, f2⟩ := ih (discoverStep cfg env avail force now acc nm)
      (fun x hx => hne x (List.mem_cons_of_mem nm hx))
    exact ⟨f1.trans s1, f2.trans s2⟩

/-- A sweep iteration on another topic leaves `t`'s entries untouched. -/
theorem sweepStep_preserves_other (env : FsEnv) (now : Nat)
    (st : RegistryState) (k t : String) (hkt : k ≠ t) :
    mapGet (sweepStep env now st k).processors t = mapGet st.processors t ∧
    mapGet (sweepStep env now st k).processorVersions t
      = mapGet st.processorVersions t := by
  have hother := deregisterProcessor_preserves_other st now (some k) t
    (fun t' ht' => by injection ht' with h2; rw [← h2]; exact hkt)
  unfold sweepStep
  split
  next => exact ⟨rfl, rfl⟩
  next infok hvk =>
    by_cases hsrc : infok.options.source = some "auto-discovery"
    · simp only [hsrc, if_true]
      cases hfp : infok.options.filePath with
      | some fpk =>
        simp only [hfp]
        by_cases hex : env.existsSync fpk = true
        · simp only [hex, if_true]
          exact ⟨trivial, trivial⟩
        · have hex' : env.existsSync fpk = false := by
            cases hb : env.existsSync fpk
            · rfl
            · exact absurd hb hex
          simp only [hex', Bool.false_eq_true, if_false]
          exact hother
      | none =>
        simp only [hfp, Bool.false_eq_true, if_false]
        exact hother
    · simp only [hsrc, if_false]
      exact ⟨trivial, trivial⟩

/-- The sweep deregisters a topic whose provenance-tagged version record
points at a path that no longer exists, once the sweep's snapshot reaches
it. -/
theorem sweepFold_removes (env : FsEnv) (now : Nat) (t : String)
    (info : VersionInfo) (fp : String)
    (hsrc : info.options.source = some "auto-discovery")
    (hfp : info.options.filePath = some fp)
    (hex : env.existsSync fp = false)
    (ht : t ≠ "") :
    ∀ (keys : List String) (st : RegistryState),
      t ∈ keys →
      mapGet st.processorVersions t = some info →
      mapGet ((keys.foldl (sweepStep env now) st)).processors t = none := by
  intro keys
  induction keys with
  | nil => intro st hmem; cases hmem
  | cons k rest ih =>
    intro st hmem hv
    simp only [List.foldl_cons]
    by_cases hkt : k = t
    · subst hkt
      have hstep : mapGet (sweepStep env now st k).processors k = none := by
        unfold sweepStep
        rw [hv]
        simp only [hsrc, if_true, hfp, hex, Bool.false_eq_true, if_false]
        rw [deregisterProcessor_get_processors st now k k ht, if_pos rfl]
      exact sweepFold_get_none env now k rest _ hstep
    · obtain ⟨s1, s2⟩ := sweepStep_preserves_other env now st k t hkt
      rcases List.mem_cons.mp hmem with heq | hrest
      · exact absurd heq.symm hkt
      · exact ih _ hrest (s2.trans hv)

/-- A sweep iteration never removes an entry whose version record lacks
the auto-discovery provenance tag. -/
theorem sweepStep_preserves_nonauto (env : FsEnv) (now : Nat)
    (st : RegistryState) (k t : String) (info : VersionInfo)
    (hv : mapGet st.processorVersions t = some info)
    (hsrc : info.options.source ≠ some "auto-discovery") :
    mapGet (sweepStep env now st k).processors t = mapGet st.processors t ∧
    mapGet (sweepStep env now st k).processorVersions t
      = mapGet st.processorVersions t := by
  by_cases hkt : k = t
  · subst hkt
    unfold sweepStep
    rw [hv]
    simp only [hsrc, if_false]
    exact ⟨trivial, hv⟩
  · exact sweepStep_preserves_other env now st k t hkt

/-- The whole sweep never removes an entry without the provenance tag. -/
theorem sweepFold_preserves_nonauto (env : FsEnv) (now : Nat) (t : String)
    (info : VersionInfo)
    (hsrc : info.options.source ≠ some "auto-discovery") :
    ∀ (keys : List String) (st : RegistryState),
      mapGet st.processorVersions t = some info →
      mapGet ((keys.foldl (sweepStep env now) st)).processors t
        = mapGet st.processors t := by
  intro keys
  induction keys with
  | nil => intro st _; rfl
  | cons k rest ih =>
    intro st hv
    simp only [List.foldl_cons]
    obtain ⟨s1, s2⟩ := sweepStep_preserves_nonauto env now st k t info hv hsrc
    exact (ih _ (s2.trans hv)).trans s1

/-- With no accessor supplied, `availableTopics` is the empty list and
every candidate is skipped by the topic-existence filter (or the
unchanged-file check): the loop is the identity. -/
theorem foldl_discoverStep_noAccessor (cfg : RegistryConfig) (env : FsEnv)
    (force : Bool) (now : Nat) :
    ∀ (names : List String) (acc : RegistryState × Nat),
      names.foldl (discoverStep cfg env (availableTopicsOf .noAccessor) force now)
        acc = acc := by
  intro names
  induction names with
  | nil => intro acc; rfl
  | cons nm rest ih =>
    intro acc
    simp only [List.foldl_cons]
    have hstep : discoverStep cfg env (availableTopicsOf .noAccessor) force now
        acc nm = acc := by
      unfold discoverStep
      dsimp only
      cases hsk : skipUnchangedCheck env acc.1 force
          (cfg.processorsDir ++ "/" ++ nm) (stripExt nm) with
      | true => simp
      | false =>
        have hfil : topicFilterSkips (availableTopicsOf .noAccessor)
          (stripExt nm) = true := rfl
        simp [hfil]
    rw [hstep, ih]

end SweepRemovalLemmas

section DiscoveryClaims

open ProcessorRegistry

/-- The returned state of `autoDiscoverProcessors` differs from the swept
loop state only in `stats`; the summary's `discovered` count is the
loop's count. -/
theorem autoDiscover_final_maps (cfg : RegistryConfig) (env : FsEnv)
    (st : RegistryState) (src : TopicSource) (force : Bool) (now : Nat) :
    (autoDiscoverProcessors cfg env st src force now).2.processors
      = (sweepPhase env now ((candidateNames cfg env).foldl
          (discoverStep cfg env (availableTopicsOf src) force now)
          (st, 0)).1).processors ∧
    (autoDiscoverProcessors cfg env st src force now).1.discovered
      = ((candidateNames cfg env).foldl
          (discoverStep cfg env (availableTopicsOf src) force now) (st, 0)).2 :=
  ⟨rfl, rfl⟩

/-- Shared pipeline: under `forceRefresh`, a candidate that passes the
topic-existence filter and loads a valid, hashable processor has a
registered processor after the full discovery pass (loop plus deletion
sweep). -/
theorem autoDiscover_registers_of_filter_pass (cfg : RegistryConfig)
    (env : FsEnv) (st : RegistryState) (now : Nat) (src : TopicSource)
    (name : String) (p : Processor)
    (hfil : ProcessorRegistry.topicFilterSkips
      (ProcessorRegistry.availableTopicsOf src) (stripExt name) = false)
    (hmem : name ∈ ProcessorRegistry.candidateNames cfg env)
    (ht : stripExt name ≠ "")
    (hload : env.loader (cfg.processorsDir ++ "/" ++ name) = some p)
    (hp : p.hasProcess = true)
    (hpn : hasCycle p.pname = false)
    (hpd : hasCycle p.description = false)
    (he : ∀ nm ∈ ProcessorRegistry.candidateNames cfg env,
      env.existsSync (cfg.processorsDir ++ "/" ++ nm) = true) :
    ProcessorRegistry.hasProcessor
      (ProcessorRegistry.autoDiscoverProcessors cfg env st src true now).2
      (stripExt name) = true := by
  have hP := foldl_discoverStep_registers cfg env
    (ProcessorRegistry.availableTopicsOf src) now name p hfil hload hp ht
    (hashProcessor_ok p hpn hpd) (ProcessorRegistry.candidateNames cfg env)
    (st, 0) hmem he
  have hQ := sweepFold_preserves_provenance env now (stripExt name)
    (ProcessorRegistry.getAvailableTopics
      ((ProcessorRegistry.candidateNames cfg env).foldl
        (ProcessorRegistry.discoverStep cfg env
          (ProcessorRegistry.availableTopicsOf src) true now) (st, 0)).1)
    _ hP
  obtain ⟨pP, infoP, fpP, q1, _, _, _, _⟩ := hQ
  unfold ProcessorRegistry.hasProcessor
  rw [(autoDiscover_final_maps cfg env st src true now).1]
  rw [show ProcessorRegistry.sweepPhase env now
      ((ProcessorRegistry.candidateNames cfg env).foldl
        (ProcessorRegistry.discoverStep cfg env
          (ProcessorRegistry.availableTopicsOf src) true now) (st, 0)).1
    = (ProcessorRegistry.getAvailableTopics
        ((ProcessorRegistry.candidateNames cfg env).foldl
          (ProcessorRegistry.discoverStep cfg env
            (ProcessorRegistry.availableTopicsOf src) true now) (st, 0)).1).foldl
        (ProcessorRegistry.sweepStep env now)
        ((ProcessorRegistry.candidateNames cfg env).foldl
          (ProcessorRegistry.discoverStep cfg env
            (ProcessorRegistry.availableTopicsOf src) true now) (st, 0)).1
    from rfl]
  rw [q1]
  rfl

end DiscoveryClaims

/-- C2 counterexample: with no external topic source supplied
(`options.kafkaAccessor` absent), `availableTopics` stays `[]` — which is
not `null` — so the topic-existence filter stays armed with an empty
list and skips every candidate: a directory holding the valid candidate
`orders.js` yields `discovered = 0` and no processor for `orders`,
instead of the claimed file-only discovery. -/
theorem autoDiscover_noAccessor_skips_valid_candidate :
    ProcessorRegistry.candidateNames cfg0 env0 = ["orders.js"] ∧
    env0.loader "./processors/orders.js" = some echoProc ∧
    (ProcessorRegistry.autoDiscoverProcessors cfg0 env0 st0 .noAccessor
       false 3000).1.discovered = 0 ∧
    ProcessorRegistry.hasProcessor
      (ProcessorRegistry.autoDiscoverProcessors cfg0 env0 st0 .noAccessor
        false 3000).2 "orders" = false :=
  ⟨rfl, rfl, rfl, rfl⟩

/-- C2 (amended): the topic-existence filter is disabled only when the
external source's query fails (`availableTopics = null`): then every
valid, hashable candidate (here under `forceRefresh`, which bypasses the
unchanged-file skip) is loaded and registered.  When no external source
is supplied at all, `availableTopics` is initialized to `[]` — not
`null` — so the filter stays armed with the empty list: the pass
discovers nothing and registers no new topic. -/
theorem autoDiscover_filter_gating :
    (∀ (cfg : RegistryConfig) (env : FsEnv) (st : RegistryState) (now : Nat)
       (name : String) (p : Processor),
       name ∈ ProcessorRegistry.candidateNames cfg env →
       stripExt name ≠ "" →
       env.loader (cfg.processorsDir ++ "/" ++ name) = some p →
       p.hasProcess = true →
       hasCycle p.pname = false →
       hasCycle p.description = false →
       (∀ nm ∈ ProcessorRegistry.candidateNames cfg env,
         env.existsSync (cfg.processorsDir ++ "/" ++ nm) = true) →
       ProcessorRegistry.hasProcessor
         (ProcessorRegistry.autoDiscoverProcessors cfg env st .failing true now).2
         (stripExt name) = true) ∧
    (∀ (cfg : RegistryConfig) (env : FsEnv) (st : RegistryState)
       (force : Bool) (now : Nat),
       (ProcessorRegistry.autoDiscoverProcessors cfg env st .noAccessor
          force now).1.discovered = 0 ∧
       (∀ t, ProcessorRegistry.hasProcessor st t = false →
         ProcessorRegistry.hasProcessor
           (ProcessorRegistry.autoDiscoverProcessors cfg env st .noAccessor
             force now).2 t = false)) := by
  constructor
  · intro cfg env st now name p hmem ht hload hp hpn hpd he
    exact autoDiscover_registers_of_filter_pass cfg env st now .failing name p
      rfl hmem ht hload hp hpn hpd he
  · intro cfg env st force now
    have hloop := foldl_discoverStep_noAccessor cfg env force now
      (ProcessorRegistry.candidateNames cfg env) (st, 0)
    constructor
    · rw [(autoDiscover_final_maps cfg env st .noAccessor force now).2, hloop]
    · intro t h0
      have h0' : mapGet st.processors t = none := by
        unfold ProcessorRegistry.hasProcessor at h0
        cases hm : mapGet st.processors t
        · rfl
        · rw [hm] at h0
          simp at h0
      unfold ProcessorRegistry.hasProcessor
      rw [(autoDiscover_final_maps cfg env st .noAccessor force now).1]
      rw [show ProcessorRegistry.sweepPhase env now
          ((ProcessorRegistry.candidateNames cfg env).foldl
            (ProcessorRegistry.discoverStep cfg env
              (ProcessorRegistry.availableTopicsOf .noAccessor) force now) (st, 0)).1
        = (ProcessorRegistry.getAvailableTopics
            ((ProcessorRegistry.candidateNames cfg env).foldl
              (ProcessorRegistry.discoverStep cfg env
                (ProcessorRegistry.availableTopicsOf .noAccessor) force now) (st, 0)).1).foldl
            (ProcessorRegistry.sweepStep env now)
            ((ProcessorRegistry.candidateNames cfg env).foldl
              (ProcessorRegistry.discoverStep cfg env
                (ProcessorRegistry.availableTopicsOf .noAccessor) force now) (st, 0)).1
        from rfl]
      rw [hloop]
      rw [sweepFold_get_none env now t _ st h0']
      rfl

/-- Witness for C2's amended theorem: the single-candidate directory.
With a failing topic source the candidate registers; with no accessor
nothing is discovered and `orders` stays unregistered. -/
theorem autoDiscover_filter_gating_witness :
    ("orders.js" ∈ ProcessorRegistry.candidateNames cfg0 env0 ∧
     env0.loader "./processors/orders.js" = some echoProc ∧
     ProcessorRegistry.hasProcessor
       (ProcessorRegistry.autoDiscoverProcessors cfg0 env0 st0 .failing
         true 3000).2 "orders" = true) ∧
    ((ProcessorRegistry.autoDiscoverProcessors cfg0 env0 st0 .noAccessor
        false 3000).1.discovered = 0 ∧
     ProcessorRegistry.hasProcessor st0 "ghost" = false ∧
     ProcessorRegistry.hasProcessor
       (ProcessorRegistry.autoDiscoverProcessors cfg0 env0 st0 .noAccessor
         false 3000).2 "ghost" = false) := by
  constructor
  · refine ⟨by decide, rfl, ?_⟩
    exact autoDiscover_filter_gating.1 cfg0 env0 st0 3000 "orders.js" echoProc
      (by decide) (by decide) rfl rfl rfl rfl
      (by intro nm hnm
          rw [show ProcessorRegistry.candidateNames cfg0 env0 = ["orders.js"]
            from rfl] at hnm
          cases hnm with
          | head => rfl
          | tail _ h => cases h)
  · refine ⟨?_, rfl, ?_⟩
    · exact (autoDiscover_filter_gating.2 cfg0 env0 st0 false 3000).1
    · exact (autoDiscover_filter_gating.2 cfg0 env0 st0 false 3000).2 "ghost" rfl

/-- C6 counterexample: the discovery refresh cycle does not re-register a
topic whose processor was deregistered while its file stayed unchanged on
disk.  A first pass registers `orders` (file on disk, topic in the known
list); after `deregisterProcessor('orders')` a second pass — same file
still on disk and still in the known-topics list — skips the candidate by
the unchanged-`mtime` check (the tracking in `processorFiles` survives
deregistration), so the pass reports success while `orders` remains
without a processor. -/
theorem autoDiscover_unchanged_skip_misses_deregistered :
    ProcessorRegistry.hasProcessor stDisc1 "orders" = true ∧
    ProcessorRegistry.hasProcessor stDereg "orders" = false ∧
    ProcessorRegistry.candidateNames cfg0 env0 = ["orders.js"] ∧
    (ProcessorRegistry.autoDiscoverProcessors cfg0 env0 stDereg
      (.topics ["orders"]) false 5000).1.success = true ∧
    ProcessorRegistry.hasProcessor
      (ProcessorRegistry.autoDiscoverProcessors cfg0 env0 stDereg
        (.topics ["orders"]) false 5000).2 "orders" = false :=
  ⟨rfl, rfl, rfl, rfl, rfl⟩

/-- C6 (amended): after a successful `autoDiscoverProcessors` pass with
`forceRefresh` (which bypasses the unchanged-file skip), every topic
derivable from a valid, hashable candidate file on disk that is present
in the successfully obtained known-topics list has a registered
processor.  Without `forceRefresh` the pass may skip files unchanged
since the registry last tracked them, so topics deregistered in between
can stay absent (see the counterexample). -/
theorem autoDiscover_disk_sync_forced (cfg : RegistryConfig) (env : FsEnv)
    (st : RegistryState) (now : Nat) (ts : List String)
    (name : String) (p : Processor)
    (hmem : name ∈ ProcessorRegistry.candidateNames cfg env)
    (ht : stripExt name ≠ "")
    (hload : env.loader (cfg.processorsDir ++ "/" ++ name) = some p)
    (hp : p.hasProcess = true)
    (hpn : hasCycle p.pname = false)
    (hpd : hasCycle p.description = false)
    (hts : stripExt name ∈ ts)
    (he : ∀ nm ∈ ProcessorRegistry.candidateNames cfg env,
      env.existsSync (cfg.processorsDir ++ "/" ++ nm) = true) :
    ProcessorRegistry.hasProcessor
      (ProcessorRegistry.autoDiscoverProcessors cfg env st (.topics ts)
        true now).2 (stripExt name) = true := by
  have hc : ts.contains (stripExt name) = true :=
    List.elem_eq_true_of_mem hts
  have hfil : ProcessorRegistry.topicFilterSkips
      (ProcessorRegistry.availableTopicsOf (.topics ts)) (stripExt name)
      = false := by
    show (!ts.contains (stripExt name)) = false
    rw [hc]
    rfl
  exact autoDiscover_registers_of_filter_pass cfg env st now (.topics ts) name p
    hfil hmem ht hload hp hpn hpd he

/-- Witness for C6's amended theorem: a forced pass over the
single-candidate directory with `orders` in the known list registers
`orders`, even starting from the deregistered state. -/
theorem autoDiscover_disk_sync_forced_witness :
    ("orders.js" ∈ ProcessorRegistry.candidateNames cfg0 env0 ∧
     stripExt "orders.js" ∈ ["orders"] ∧
     env0.loader "./processors/orders.js" = some echoProc) ∧
    ProcessorRegistry.hasProcessor
      (ProcessorRegistry.autoDiscoverProcessors cfg0 env0 stDereg
        (.topics ["orders"]) true 6000).2 "orders" = true := by
  refine ⟨⟨by decide, by decide, rfl⟩, ?_⟩
  exact autoDiscover_disk_sync_forced cfg0 env0 stDereg 6000 ["orders"]
    "orders.js" echoProc (by decide) (by decide) rfl rfl rfl rfl (by decide)
    (by intro nm hnm
        rw [show ProcessorRegistry.candidateNames cfg0 env0 = ["orders.js"]
          from rfl] at hnm
        cases hnm with
        | head => rfl
        | tail _ h => cases h)

/-- C7: the deletion sweep at the end of a discovery pass.  (a) An entry
registered with auto-discovery provenance whose recorded file path no
longer exists is deregistered by the pass (stated for a topic not
re-derived from any current candidate, so the loop leaves it alone and
the sweep decides): `hasProcessor(topic)` is `false` afterward.  (b) The
sweep never removes an entry whose version record lacks the provenance
tag. -/
theorem discovery_sweep_provenance :
    (∀ (cfg : RegistryConfig) (env : FsEnv) (st : RegistryState)
       (src : TopicSource) (force : Bool) (now : Nat) (t : String)
       (info : VersionInfo) (fp : String),
       mapGet st.processorVersions t = some info →
       info.options.source = some "auto-discovery" →
       info.options.filePath = some fp →
       env.existsSync fp = false →
       t ≠ "" →
       (∀ nm ∈ ProcessorRegistry.candidateNames cfg env, stripExt nm ≠ t) →
       ProcessorRegistry.hasProcessor
         (ProcessorRegistry.autoDiscoverProcessors cfg env st src force now).2 t
         = false) ∧
    (∀ (env : FsEnv) (now : Nat) (st : RegistryState) (t : String)
       (info : VersionInfo),
       mapGet st.processorVersions t = some info →
       info.options.source ≠ some "auto-discovery" →
       mapGet (ProcessorRegistry.sweepPhase env now st).processors t
         = mapGet st.processors t) := by
  constructor
  · intro cfg env st src force now t info fp hv hsrc hfp hex ht hnc
    obtain ⟨l1, l2⟩ := foldl_discoverStep_preserves_other cfg env
      (ProcessorRegistry.availableTopicsOf src) force now t
      (ProcessorRegistry.candidateNames cfg env) (st, 0) hnc
    unfold ProcessorRegistry.hasProcessor
    rw [(autoDiscover_final_maps cfg env st src force now).1]
    rw [show ProcessorRegistry.sweepPhase env now
        ((ProcessorRegistry.candidateNames cfg env).foldl
          (ProcessorRegistry.discoverStep cfg env
            (ProcessorRegistry.availableTopicsOf src) force now) (st, 0)).1
      = (ProcessorRegistry.getAvailableTopics
          ((ProcessorRegistry.candidateNames cfg env).foldl
            (ProcessorRegistry.discoverStep cfg env
              (ProcessorRegistry.availableTopicsOf src) force now) (st, 0)).1).foldl
          (ProcessorRegistry.sweepStep env now)
          ((ProcessorRegistry.candidateNames cfg env).foldl
            (ProcessorRegistry.discoverStep cfg env
              (ProcessorRegistry.availableTopicsOf src) force now) (st, 0)).1
      from rfl]
    cases hm0 : mapGet st.processors t with
    | none =>
      rw [sweepFold_get_none env now t _ _ (l1.trans hm0)]
      rfl
    | some p0 =>
      have hmem : t ∈ ProcessorRegistry.getAvailableTopics
          ((ProcessorRegistry.candidateNames cfg env).foldl
            (ProcessorRegistry.discoverStep cfg env
              (ProcessorRegistry.availableTopicsOf src) force now) (st, 0)).1 :=
        mapGet_mem_keys _ t p0 (l1.trans hm0)
      rw [sweepFold_removes env now t info fp hsrc hfp hex ht _ _ hmem
        (l2.trans hv)]
      rfl
  · intro env now st t info hv hsrc
    exact sweepFold_preserves_nonauto env now t info hsrc
      (ProcessorRegistry.getAvailableTopics st) st hv

set_option maxRecDepth 4000 in
/-- Witness for C7: (a) the provenance entry for `orders` pointing at the
deleted `./processors/orders.js` is swept away by a pass over the emptied
directory; (b) the manually registered `orders` entry of `stOrders`
(options without a provenance tag) survives the sweep. -/
theorem discovery_sweep_provenance_witness :
    (mapGet stProv.processorVersions "orders"
       = some { version := "1000-6e2c190", registeredAt := "1000Z",
                updatedAt := "1000Z",
                options := { source := some "auto-discovery",
                             filePath := some "./processors/orders.js" } } ∧
     envDeleted.existsSync "./processors/orders.js" = false ∧
     ProcessorRegistry.hasProcessor
       (ProcessorRegistry.autoDiscoverProcessors cfg0 envDeleted stProv
         (.topics ["orders"]) false 9000).2 "orders" = false) ∧
    (mapGet stOrders.processorVersions "orders"
       = some { version := "1000-6e2c190", registeredAt := "1000Z",
                updatedAt := "1000Z", options := {} } ∧
     mapGet (ProcessorRegistry.sweepPhase env0 9000 stOrders).processors "orders"
       = mapGet stOrders.processors "orders") := by
  constructor
  · refine ⟨rfl, rfl, ?_⟩
    exact discovery_sweep_provenance.1 cfg0 envDeleted stProv (.topics ["orders"])
      false 9000 "orders"
      { version := "1000-6e2c190", registeredAt := "1000Z", updatedAt := "1000Z",
        options := { source := some "auto-discovery",
                     filePath := some "./processors/orders.js" } }
      "./processors/orders.js" rfl rfl rfl rfl (by decide)
      (by intro nm hnm
          rw [show ProcessorRegistry.candidateNames cfg0 envDeleted
            = ([] : List String) from rfl] at hnm
          cases hnm)
  · refine ⟨rfl, ?_⟩
    exact discovery_sweep_provenance.2 env0 9000 stOrders "orders"
      { version := "1000-6e2c190", registeredAt := "1000Z", updatedAt := "1000Z",
        options := {} } rfl (by decide)
